import Mathlib

/-!
# Distbuild: scheduler, coordinator and build-status stream

A shallow embedding of `pkg/scheduler/scheduler.go`, `pkg/dist/coordinator.go`,
the `/build` handler of `pkg/api/build_handler.go`, the status reader of
`pkg/api/build_client.go`, the command loop of `pkg/worker/worker.go` and the
upload handler of `pkg/filecache/handler.go`.

Conventions of the embedding.

* Go pointers to `PendingJob` are addresses into an explicit store
  (`Scheduler.heap`); the nil pointer is `none`.
* A Go `chan struct{}` on which nothing is ever sent is a boolean:
  `true` once the channel has been closed.
* Go maps that are only read and written by key are functions `K → Option V`;
  the one map that is iterated (`Graph.SourceFiles`) is a key-unique entry list
  whose order stands for the iteration order Go happens to pick.
* Every stretch of code that holds a mutex throughout is one atomic function
  on the state.  `Scheduler.ScheduleJob` gives up its mutex between the lookup
  and the registration: it is split there (`Scheduler.ScheduleJobAmid`), with
  what other goroutines do in between as parameters.  `StartBuild` takes what
  others do while it waits from a `World`; the gate shared by several builds
  is the machine `Gate`.  Operations that may block or fail at run time return
  an `Exec`.
-/

namespace Distbuild

/-! ## Outcomes of Go calls -/

/-- Outcome of running a Go call: it returns, it fails at run time (a Go panic),
or it cannot return in the current state (it is parked on a condition variable,
channel or wait group). -/
inductive Exec (α : Type) where
  | ret (a : α)
  | panic
  | blocked

/-- Sequencing of outcomes. -/
def Exec.bind {α β : Type} (x : Exec α) (f : α → Exec β) : Exec β :=
  match x with
  | .ret a => f a
  | .panic => .panic
  | .blocked => .blocked

/-- The call returned. -/
def Exec.returns {α : Type} (x : Exec α) : Bool :=
  match x with
  | .ret _ => true
  | _ => false

/-- The call failed at run time. -/
def Exec.panics {α : Type} (x : Exec α) : Bool :=
  match x with
  | .panic => true
  | _ => false

/-- The call is parked. -/
def Exec.isBlocked {α : Type} (x : Exec α) : Bool :=
  match x with
  | .blocked => true
  | _ => false

/-- The value a call returned, when it did. -/
def Exec.value? {α : Type} (x : Exec α) : Option α :=
  match x with
  | .ret a => some a
  | _ => none

/-! ## Data model -/

/-- Modelled from the spec: `build.ID` (package `build` is not among the sources), an
opaque fixed-width identifier compared bytewise. -/
abbrev ID := Nat

/-- Modelled from the spec: `api.WorkerID` (its declaration is not among the sources), the
name of a worker; the Go zero value is the empty string. -/
abbrev WorkerID := String

/-- A Go map that is only accessed by key. -/
abbrev GoMap (K V : Type) := K → Option V

/-- The empty map, `make(map[K]V)`. -/
def GoMap.empty {K V : Type} : GoMap K V := fun _ => none

/-- The assignment `m[k] = v`. -/
def GoMap.set {K V : Type} [DecidableEq K] (m : GoMap K V) (k : K) (v : V) : GoMap K V :=
  fun x => if x = k then some v else m x

/-- A Go map that is iterated with `range`: its entries in the order of the iteration,
with pairwise distinct keys. -/
structure RangeMap (K V : Type) where
  entries : List (K × V)
  nodup : (entries.map Prod.fst).Nodup

/-- The keys of an iterated map. -/
def RangeMap.keys {K V : Type} (m : RangeMap K V) : List K := m.entries.map Prod.fst

/-- Modelled from the spec: `build.Cmd` (package `build` is not among the sources): optional
argv, environment, working directory and a "cat" template with its output path. -/
structure Cmd where
  Exec : Option (List String)
  Environ : List String
  WorkingDirectory : String
  CatTemplate : String
  CatOutput : String
deriving DecidableEq, Repr

/-- Modelled from the spec: `build.Job` (package `build` is not among the sources):
identifier, input paths, dependency job IDs and commands. -/
structure Job where
  ID : ID
  Inputs : List String
  Deps : List Distbuild.ID
  Cmds : List Cmd
deriving DecidableEq, Repr

/-- Modelled from the spec: `build.Graph` (package `build` is not among the sources): the
source-file mapping and the jobs. -/
structure Graph where
  SourceFiles : RangeMap ID String
  Jobs : List Job

/-- Modelled from the spec: `api.JobSpec` (its declaration is not among the sources): the job
together with the source files it consumes and the locations of its dependencies'
artifacts, as `StartBuild` fills it in. -/
structure JobSpec where
  Job : Job
  SourceFiles : GoMap ID String
  Artifacts : GoMap ID WorkerID

/-- Modelled from the spec: `api.JobResult` (its declaration is not among the sources): job ID,
exit code, captured output bytes and an error string that is empty on success. -/
structure JobResult where
  ID : ID
  ExitCode : Int
  Stdout : List Nat
  Stderr : List Nat
  Error : String
deriving DecidableEq, Repr

/-- The Go zero value `api.JobResult{}`. -/
def JobResult.zero : JobResult :=
  { ID := 0, ExitCode := 0, Stdout := [], Stderr := [], Error := "" }

/-- A pointer to a `PendingJob`: `none` is nil, `some a` is the object at address `a`. -/
abbrev PJPtr := Option Nat

/-- The struct `PendingJob`; `Finished` is `true` once the channel has been closed. -/
structure PendingJob where
  Job : JobSpec
  Finished : Bool
  Result : JobResult

/-! ## BlockingQueue -/

/-- The struct `BlockingQueue` (mutex and condition variable left out: every method
holds the mutex for its whole body). -/
structure BlockingQueue where
  queue : List PJPtr
  closed : Bool
deriving DecidableEq, Repr

/-- The constructor `NewQueue`. -/
def NewQueue : BlockingQueue := { queue := [], closed := false }

/-- Method `BlockingQueue.Put`: nothing on a closed queue, otherwise append (and wake waiters). -/
def BlockingQueue.Put (q : BlockingQueue) (job : PJPtr) : BlockingQueue :=
  if q.closed then q
  else { q with queue := q.queue ++ [job] }

/-- Method `BlockingQueue.Take`: parked while the queue is empty and open; `(nil, false)` on an
empty (hence closed) queue; otherwise the head, which is removed. -/
def BlockingQueue.Take (q : BlockingQueue) : Exec ((PJPtr × Bool) × BlockingQueue) :=
  if q.queue.length = 0 ∧ ¬ q.closed then .blocked
  else
    match q.queue with
    | [] => .ret ((none, false), q)
    | job :: rest => .ret ((job, true), { q with queue := rest })

/-- Method `BlockingQueue.Close`: set the sticky flag (and wake all waiters). -/
def BlockingQueue.Close (q : BlockingQueue) : BlockingQueue :=
  { q with closed := true }

/-- One call on a queue. -/
inductive QueueOp where
  | put (job : PJPtr)
  | take
  | close
deriving DecidableEq, Repr

/-- Run a sequence of queue calls, collecting what the successful `Take`s returned.  A
`Take` that finds the queue empty and open stays parked (it returns nothing and changes
nothing; when it is woken it checks the queue again, which is a later `take` of the
sequence); a `Take` on an empty closed queue returns `(nil, false)` and adds nothing. -/
def runQueue : List QueueOp → BlockingQueue → List PJPtr × BlockingQueue
  | [], q => ([], q)
  | .put job :: ops, q => runQueue ops (q.Put job)
  | .close :: ops, q => runQueue ops q.Close
  | .take :: ops, q =>
    match q.Take with
    | .ret ((job, true), q1) =>
      let r := runQueue ops q1
      (job :: r.1, r.2)
    | .ret ((_, false), q1) => runQueue ops q1
    | _ => runQueue ops q

/-- The jobs handed to `Put` by a sequence of calls, in order. -/
def putsOf : List QueueOp → List PJPtr
  | [] => []
  | .put job :: ops => job :: putsOf ops
  | _ :: ops => putsOf ops

/-- The sequence never calls `Close`. -/
def noClose : List QueueOp → Bool
  | [] => true
  | .close :: _ => false
  | _ :: ops => noClose ops

/-! ## Scheduler -/

/-- The struct `Scheduler`.  The field `heap` is the store of the `PendingJob` objects
allocated so far (a pointer is an index into it); `helping` is the counter of the wait
group of the same name, the number of helper goroutines of `PickJob` still running. -/
structure Scheduler where
  queue : BlockingQueue
  Artifacts : GoMap ID WorkerID
  resJobs : GoMap ID PJPtr
  heap : List PendingJob
  helping : Nat

/-- The constructor `NewScheduler`. -/
def NewScheduler : Scheduler :=
  { queue := NewQueue, Artifacts := GoMap.empty, resJobs := GoMap.empty,
    heap := [], helping := 0 }

/-- Dereference a `*PendingJob`: nothing for nil. -/
def Scheduler.deref (c : Scheduler) (p : PJPtr) : Option PendingJob :=
  match p with
  | none => none
  | some a => c.heap[a]?

/-- Overwrite the object at address `a`. -/
def Scheduler.store (c : Scheduler) (a : Nat) (pj : PendingJob) : Scheduler :=
  { c with heap := c.heap.set a pj }

/-- The channel of the object at address `a` has been closed. -/
def Scheduler.isFinished (c : Scheduler) (a : Nat) : Bool :=
  match c.heap[a]? with
  | some pj => pj.Finished
  | none => false

/-- The result slot of the pending job registered under `id`. -/
def Scheduler.resultSlot (c : Scheduler) (id : ID) : Option JobResult :=
  match c.resJobs id with
  | some p => (c.deref p).map PendingJob.Result
  | none => none

/-- Method `Scheduler.LocateArtifact`: the map read `worker, ok := c.Artifacts[id]`; a
missing key gives the zero `WorkerID` and `false`. -/
def Scheduler.LocateArtifact (c : Scheduler) (id : ID) : WorkerID × Bool :=
  match c.Artifacts id with
  | some worker => (worker, true)
  | none => ("", false)

/-- The Go builtin `close` on a channel: a run-time failure (`none`) on a channel that is
already closed. -/
def closeChan (closed : Bool) : Option Bool :=
  if closed then none else some true

/-- Method `Scheduler.OnJobComplete`.  `c.resJobs[jobID]` is nil for an unregistered ID and
the selector `.Finished` on it fails.  The `select` receives from `Finished` only when
the channel is closed, and then sets `isChanClosed` to the receive's `ok`, which is
`false`; on an open channel the `default` case leaves it `true`.  The five result fields
are then copied unconditionally. -/
def Scheduler.OnJobComplete (c : Scheduler) (_workerID : WorkerID) (jobID : ID)
    (res : JobResult) : Exec (Bool × Scheduler) :=
  match c.resJobs jobID with
  | some (some a) =>
    match c.heap[a]? with
    | some pj =>
      let isChanClosed := if pj.Finished then false else true
      let closing : Option Bool := if isChanClosed then closeChan pj.Finished else some pj.Finished
      match closing with
      | none => .panic
      | some fin =>
        let result : JobResult :=
          { pj.Result with
            ID := res.ID, ExitCode := res.ExitCode, Stdout := res.Stdout,
            Stderr := res.Stderr, Error := res.Error }
        .ret (true, c.store a { pj with Finished := fin, Result := result })
    | none => .panic
  | _ => .panic

/-- The middle of `ScheduleJob`, after a lookup that missed: a new object with an open channel
and a zero result is allocated and `Put` on the queue. -/
def Scheduler.createPending (c : Scheduler) (job : JobSpec) : PJPtr × Scheduler :=
  let pending : PendingJob := { Job := job, Finished := false, Result := JobResult.zero }
  let a := c.heap.length
  let c1 := { c with heap := c.heap ++ [pending] }
  (some a, { c1 with queue := c1.queue.Put (some a) })

/-- The last critical section of `ScheduleJob`: the assignment `c.resJobs[job.ID] = pending`,
which is made whatever the registry holds by then. -/
def Scheduler.register (c : Scheduler) (id : ID) (pending : PJPtr) : Scheduler :=
  { c with resJobs := c.resJobs.set id pending }

/-- Method `Scheduler.ScheduleJob` with what other goroutines do between its critical
sections.  The lookup returns the registered pending job when the ID is known.  Otherwise
the mutex is released: `amidPut` is what the others do before the new pending job is
created and `Put`, `amidRegister` what they do between the `Put` and the registration.
An overlapping `ScheduleJob` for the same ID is such a step: both calls miss the lookup,
both `Put`, and the later registration replaces the earlier one. -/
def Scheduler.ScheduleJobAmid (c : Scheduler) (amidPut amidRegister : Scheduler → Scheduler)
    (job : JobSpec) : PJPtr × Scheduler :=
  match c.resJobs job.Job.ID with
  | some done => (done, c)
  | none =>
    let created := (amidPut c).createPending job
    (created.1, (amidRegister created.2).register job.Job.ID created.1)

/-- Method `Scheduler.ScheduleJob` as a call that no other goroutine interleaves with: the
registered pending job when the ID is known; otherwise a new object with an open channel
and a zero result, which is `Put` on the queue and then registered. -/
def Scheduler.ScheduleJob (c : Scheduler) (job : JobSpec) : PJPtr × Scheduler :=
  c.ScheduleJobAmid (fun s => s) (fun s => s) job

/-- Method `Scheduler.PickJob`; `ctxDone` tells whether the context is cancelled when the
call is decided.  The helper goroutine runs `queue.Take` and offers what it took on the
unbuffered channel `waitJob`.  A hand-over on `waitJob` needs one side parked in its
`select`, and a cancellation wakes every parked side through `ctx.Done()`; so the caller
receives from the helper exactly when the context is not cancelled.
* Context cancelled: the caller returns nil.  A helper parked in `Take` stays behind,
  still counted in `helping`; a helper whose `Take` returns drops what it took.
* Context not cancelled: the caller is parked as long as the helper is parked in `Take`;
  otherwise it receives `job` (nil when `Take` found the queue closed and empty),
  evaluates `job.Job.ID`, which fails for nil, records the worker and returns `job`. -/
def Scheduler.PickJob (c : Scheduler) (ctxDone : Bool) (workerID : WorkerID) :
    Exec (PJPtr × Scheduler) :=
  match c.queue.Take with
  | .blocked =>
    if ctxDone then .ret (none, { c with helping := c.helping + 1 })
    else .blocked
  | .panic => .panic
  | .ret ((job, _), q1) =>
    if ctxDone then .ret (none, { c with queue := q1 })
    else
      match c.deref job with
      | none => .panic
      | some pj =>
        .ret (job, { c with queue := q1, Artifacts := c.Artifacts.set pj.Job.Job.ID workerID })

/-- A helper goroutine that a cancelled `PickJob` left parked in `Take` goes on: once the
queue is non-empty or closed its `Take` returns, and, its context being done, it drops
what it took and leaves the wait group.  Nothing happens without such a helper or while
its `Take` stays parked. -/
def Scheduler.helperResumes (c : Scheduler) : Option Scheduler :=
  if c.helping = 0 then none
  else
    match c.queue.Take with
    | .ret (_, q1) => some { c with queue := q1, helping := c.helping - 1 }
    | _ => none

/-- Method `Scheduler.Stop`: close the queue and wait for the helpers.  Every helper left
behind by a cancelled `PickJob` is woken by the close; its `Take` returns the head, if
there is one, and it drops it and leaves the wait group. -/
def Scheduler.Stop (c : Scheduler) : Scheduler :=
  { c with queue := { queue := c.queue.queue.drop c.helping, closed := true }, helping := 0 }

/-- One step on the scheduler: a call of one of its methods, a step of a helper goroutine
left behind, or one of the two later parts of a `ScheduleJob` whose lookup missed
earlier (`create` is its allocation and `Put`, `register` its registration), so that
sequences of steps cover calls of `ScheduleJob` that overlap with other calls. -/
inductive SchedOp where
  | locate (id : ID)
  | complete (workerID : WorkerID) (jobID : ID) (res : JobResult)
  | schedule (job : JobSpec)
  | pick (ctxDone : Bool) (workerID : WorkerID)
  | stop
  | helper
  | create (job : JobSpec)
  | register (id : ID) (pending : PJPtr)

/-- The state after one step that completes; `none` when a call fails or stays parked. -/
def Scheduler.applyOp (c : Scheduler) : SchedOp → Option Scheduler
  | .locate _ => some c
  | .complete w j r => (c.OnJobComplete w j r).value?.map Prod.snd
  | .schedule job => some (c.ScheduleJob job).2
  | .pick ctxDone w => (c.PickJob ctxDone w).value?.map Prod.snd
  | .stop => some c.Stop
  | .helper => c.helperResumes
  | .create job => some (c.createPending job).2
  | .register id pending => some (c.register id pending)

/-- The state after a sequence of steps that all complete. -/
def Scheduler.runOps (c : Scheduler) : List SchedOp → Option Scheduler
  | [] => some c
  | op :: ops =>
    match c.applyOp op with
    | some c1 => c1.runOps ops
    | none => none

/-- The scheduler after a sequence of steps, left as it is when one of them does not
complete. -/
def Scheduler.after (c : Scheduler) (ops : List SchedOp) : Scheduler :=
  (c.runOps ops).getD c

/-- No step of the sequence is the registration part of an overlapping `ScheduleJob` for the
given ID. -/
def noRegister (id : ID) : List SchedOp → Bool
  | [] => true
  | .register id2 _ :: ops => (id2 != id) && noRegister id ops
  | _ :: ops => noRegister id ops

/-- Whether the pending job registered under an ID has finished; nothing for an ID that is
not registered. -/
def Scheduler.jobFinished (c : Scheduler) (id : ID) : Option Bool :=
  match c.resJobs id with
  | some (some a) => some (c.isFinished a)
  | _ => none

/-! ## Build-status stream (`pkg/api/build_handler.go`) -/

/-- Modelled from the spec: `api.BuildStarted` (its declaration is not among the sources). -/
structure BuildStarted where
  ID : ID
  MissingFiles : List Distbuild.ID
deriving DecidableEq, Repr

/-- Modelled from the spec: `api.BuildFailed` (its declaration is not among the sources). -/
structure BuildFailed where
  Error : String
deriving DecidableEq, Repr

/-- Modelled from the spec: `api.BuildFinished` (its declaration is not among the sources), a
struct without fields. -/
structure BuildFinished where
deriving DecidableEq, Repr

/-- Modelled from the spec: `api.StatusUpdate` (its declaration is not among the sources): three
optional parts, each a pointer that may be nil. -/
structure StatusUpdate where
  JobFinished : Option JobResult
  BuildFailed : Option BuildFailed
  BuildFinished : Option BuildFinished
deriving DecidableEq, Repr

/-- One line written to the response body of `/build`. -/
inductive Frame where
  | started (rsp : BuildStarted)
  | updated (update : StatusUpdate)
  | text (line : String)
deriving DecidableEq, Repr

/-- What happens to one write of a frame: the line is written and flushed, `Fprintln`
fails, or `Flush` fails after the line was written. -/
inductive WriteResult where
  | ok
  | writeFails
  | flushFails
deriving DecidableEq, Repr

/-- The response of one `/build` request as seen through `BuildStatusWriter`, with the
`isStarted` flag of the `BuildHandler` behind it.  `io` tells how the `n`-th write call
goes and `calls` counts the write calls made so far. -/
structure Stream where
  frames : List Frame
  status : Option Nat
  isStarted : Bool
  calls : Nat
  io : Nat → WriteResult

/-- Write one line and flush: the error returned, if any, and the stream afterwards. -/
def Stream.writeLine (w : Stream) (f : Frame) : Option String × Stream :=
  match w.io w.calls with
  | .ok => (none, { w with frames := w.frames ++ [f], calls := w.calls + 1 })
  | .writeFails => (some "write error", { w with calls := w.calls + 1 })
  | .flushFails => (some "flush error", { w with frames := w.frames ++ [f], calls := w.calls + 1 })

/-- Method `BuildStatusWriter.Started`: set `isStarted`, then write and flush the frame. -/
def Stream.Started (w : Stream) (rsp : BuildStarted) : Option String × Stream :=
  { w with isStarted := true }.writeLine (.started rsp)

/-- Method `BuildStatusWriter.Updated`: write and flush the frame. -/
def Stream.Updated (w : Stream) (update : StatusUpdate) : Option String × Stream :=
  w.writeLine (.updated update)

/-! ## Coordinator (`pkg/dist/coordinator.go`) -/

/-- Modelled from the spec: the state of a cache entry (`filecache.Cache` is not among the
sources). -/
inductive EntryState where
  | Writing
  | Ready
deriving DecidableEq, Repr

/-- Modelled from the spec: `filecache.Cache` (not among the sources), a map from ID to the
path and state of the entry. -/
structure FileCache where
  entries : GoMap ID (String × EntryState)

/-- Modelled from the spec: `Cache.Get` (not among the sources) gives the path of a `Ready`
entry and fails with "not found" or "still writing" otherwise.  The read lock it takes is
given back by the `unlock()` that follows it in `StartBuild`, so the cache is unchanged. -/
def FileCache.Get (fc : FileCache) (id : ID) : Except String String :=
  match fc.entries id with
  | none => .error "not found"
  | some (_, .Writing) => .error "still writing"
  | some (path, .Ready) => .ok path

/-- The struct `Coordinator`: the file cache, the scheduler and the counter of the wait
group `waitSignal`. -/
structure Coordinator where
  fileCache : FileCache
  sched : Scheduler
  waitSignal : Int

/-- The constructor `NewCoordinator`. -/
def NewCoordinator (fileCache : FileCache) : Coordinator :=
  { fileCache := fileCache, sched := NewScheduler, waitSignal := 0 }

/-- Modelled from the spec: `api.BuildRequest` (its declaration is not among the sources). -/
structure BuildRequest where
  Graph : Graph

/-- The request context as one `select` of `StartBuild` sees it: whether it is cancelled,
and whether the `select` runs the `ctx.Done()` case when the pending job's channel is
closed as well (Go picks one of the ready cases at random). -/
structure Ctx where
  done : Bool
  preferDone : Bool
deriving DecidableEq, Repr

/-- What the rest of the system does while one `StartBuild` is parked or between the
critical sections of its `ScheduleJob`: `atGate` is the effect of the other goroutines on
the coordinator while the build waits at the upload gate, `atJob k` their effect while
it waits for the `k`-th job of the sorted list, and `ctx k` is the request context as the
`select` of that wait sees it; `amidPut k` and `amidRegister k` are their effect on the
scheduler inside the `ScheduleJob` of the `k`-th job, after a lookup that missed and
after the `Put` (nothing, unless given). -/
structure World where
  atGate : Coordinator → Coordinator
  atJob : Nat → Coordinator → Coordinator
  ctx : Nat → Ctx
  amidPut : Nat → Scheduler → Scheduler := fun _ s => s
  amidRegister : Nat → Scheduler → Scheduler := fun _ s => s

/-- The first loop of `StartBuild`: the source IDs whose `Get` fails, in iteration order. -/
def probeFiles (fc : FileCache) : List (ID × String) → List ID
  | [] => []
  | (id, _) :: rest =>
    match fc.Get id with
    | .error _ => id :: probeFiles fc rest
    | .ok _ => probeFiles fc rest

/-- The `SourceFiles` map `StartBuild` builds for a job: for each entry of the graph's
mapping, the inner loop sets the entry when it meets an input equal to the path. -/
def jobSourceFiles (graph : Graph) (job : Job) : GoMap ID String :=
  graph.SourceFiles.entries.foldl
    (fun m e => if job.Inputs.any (fun input => input == e.2) then m.set e.1 e.2 else m)
    GoMap.empty

/-- The `Artifacts` map `StartBuild` builds for a job: every dependency is mapped to the
first result of `LocateArtifact`. -/
def jobArtifacts (sched : Scheduler) (job : Job) : GoMap ID WorkerID :=
  job.Deps.foldl (fun m depID => m.set depID (sched.LocateArtifact depID).1) GoMap.empty

/-- The `JobSpec` that `StartBuild` builds for a job. -/
def makeJobSpec (graph : Graph) (sched : Scheduler) (job : Job) : JobSpec :=
  { Job := job, SourceFiles := jobSourceFiles graph job, Artifacts := jobArtifacts sched job }

/-- The frame `StartBuild` writes for a completed job. -/
def jobFrame (result : JobResult) : StatusUpdate :=
  { JobFinished := some result, BuildFailed := none, BuildFinished := some {} }

/-- The error text of `context.Canceled`. -/
def ctxErr : String := "context canceled"

/-- The first half of one round of the job loop of `StartBuild`, for the `k`-th job: build
the spec, schedule it, and wait.  The result is the pending job `ScheduleJob` returned
and the coordinator as it is when the wait ends. -/
def waitPoint (world : World) (graph : Graph) (k : Nat) (job : Job) (c : Coordinator) :
    PJPtr × Coordinator :=
  let jobSpec := makeJobSpec graph c.sched job
  let scheduled := c.sched.ScheduleJobAmid (world.amidPut k) (world.amidRegister k) jobSpec
  (scheduled.1, world.atJob k { c with sched := scheduled.2 })

/-- The job loop of `StartBuild`, from the `k`-th job on.  It returns the error of an early
return (`ctx.Err()`), if any.  Each round builds the spec, schedules it, waits for the
pending job or the context, and writes the job's frame, ignoring the write's error. -/
def buildLoop (world : World) (graph : Graph) :
    Nat → List Job → Coordinator → Stream → Exec (Option String × Coordinator × Stream)
  | _, [], c, w => .ret (none, c, w)
  | k, job :: rest, c, w =>
    let wp := waitPoint world graph k job c
    match wp.2.sched.deref wp.1 with
    | none => .panic
    | some pj =>
      if (world.ctx k).done ∧ (¬ pj.Finished ∨ (world.ctx k).preferDone) then
        .ret (some ctxErr, wp.2, w)
      else if pj.Finished then
        buildLoop world graph (k + 1) rest wp.2 (w.Updated (jobFrame pj.Result)).2
      else .blocked

/-- The `BuildStarted` frame of `StartBuild`; `newID` is the ID that `build.NewID()` draws. -/
def Coordinator.startedFrame (c : Coordinator) (newID : ID) (request : BuildRequest) :
    BuildStarted :=
  { ID := newID, MissingFiles := probeFiles c.fileCache request.Graph.SourceFiles.entries }

/-- The call `c.waitSignal.Add(1)` of `StartBuild`. -/
def Coordinator.gateAdd (c : Coordinator) : Coordinator :=
  { c with waitSignal := c.waitSignal + 1 }

/-- The coordinator when `StartBuild` has passed the upload gate: the wait group was
incremented and the other goroutines have run while the build waited. -/
def Coordinator.pastGate (c : Coordinator) (world : World) : Coordinator :=
  world.atGate c.gateAdd

/-- Method `Coordinator.StartBuild`.  `TopSort` (package `build`, not among the sources) and
the ID that `build.NewID()` draws are parameters. -/
def Coordinator.StartBuild (c : Coordinator) (world : World) (TopSort : List Job → List Job)
    (newID : ID) (request : BuildRequest) (w : Stream) :
    Exec (Option String × Coordinator × Stream) :=
  let jobs := TopSort request.Graph.Jobs
  let graph := request.Graph
  let started := w.Started (c.startedFrame newID request)
  let c2 := c.pastGate world
  if c2.waitSignal ≠ 0 then .blocked
  else
    (buildLoop world graph 0 jobs c2 started.2).bind fun r =>
      match r.1 with
      | some e => .ret (some e, r.2)
      | none => .ret (started.1, r.2)

/-- The terminal frame of a build stream. -/
def eofFrame : StatusUpdate :=
  { JobFinished := none, BuildFailed := some { Error := "EOF" }, BuildFinished := none }

/-- The wait points of the job loop from the `k`-th job on, when every wait ends with the
job finished: each is reached from the coordinator the previous one left. -/
def waitPoints (world : World) (graph : Graph) :
    Nat → List Job → Coordinator → List (PJPtr × Coordinator)
  | _, [], _ => []
  | k, job :: rest, c =>
    waitPoint world graph k job c :: waitPoints world graph (k + 1) rest (waitPoint world graph k job c).2

/-- The result slot of the pending job of a wait point, read when the wait ends. -/
def waitResult (wp : PJPtr × Coordinator) : Option JobResult :=
  (wp.2.sched.deref wp.1).map PendingJob.Result

/-- The pending job of a wait point has finished when the wait ends. -/
def waitFinished (wp : PJPtr × Coordinator) : Bool :=
  match wp.2.sched.deref wp.1 with
  | some pj => pj.Finished
  | none => false

/-- Method `MainBuildHandler.ServeHTTP`; `body` is the decoded request, `none` when reading or
decoding the body fails. -/
def ServeHTTP (c : Coordinator) (world : World) (TopSort : List Job → List Job)
    (newID : ID) (body : Option BuildRequest) (w : Stream) : Exec (Coordinator × Stream) :=
  match body with
  | none => .ret (c, { w with status := some 400 })
  | some buildRequest =>
    (c.StartBuild world TopSort newID buildRequest w).bind fun r =>
      match r.1 with
      | some e =>
        if r.2.2.isStarted then
          .ret (r.2.1, (r.2.2.Updated
            { JobFinished := none, BuildFailed := some { Error := e }, BuildFinished := none }).2)
        else .ret (r.2.1, (r.2.2.writeLine (.text e)).2)
      | none => .ret (r.2.1, (r.2.2.Updated eofFrame).2)

/-- Modelled from the spec: `api.SignalRequest` and `api.UploadDone` (their declarations are
not among the sources). -/
structure SignalRequest where
  UploadDone : Option Unit
deriving DecidableEq, Repr

/-- Modelled from the spec: `api.SignalResponse` (its declaration is not among the sources), a
struct without fields. -/
structure SignalResponse where
deriving DecidableEq, Repr

/-- Method `Coordinator.SignalBuild`: `waitSignal.Done()`, which fails when the counter would
become negative, then the empty response and a nil error. -/
def Coordinator.SignalBuild (c : Coordinator) (_buildID : ID) (_signal : SignalRequest) :
    Exec ((SignalResponse × Option String) × Coordinator) :=
  if c.waitSignal - 1 < 0 then .panic
  else .ret (({}, none), { c with waitSignal := c.waitSignal - 1 })

/-- The upload gate with the builds that use it: the coordinator, whose `waitSignal` is the
one counter, the IDs of the builds parked in `waitSignal.Wait()`, in the order in which
they arrived, and the IDs of the builds that got past it. -/
structure Gate where
  coord : Coordinator
  waiting : List ID
  released : List ID

/-- What happens at the gate: a `StartBuild` calls `waitSignal.Add(1)`, a `StartBuild` that
has done so calls `waitSignal.Wait()`, or a `SignalBuild` is served. -/
inductive GateEvent where
  | add (buildID : ID)
  | wait (buildID : ID)
  | signal (buildID : ID)
deriving DecidableEq, Repr

/-- The waiters of a wait group go on when its counter is zero: all the builds in `Wait`
return from it together. -/
def Gate.settle (g : Gate) : Gate :=
  if g.coord.waitSignal = 0 then { g with waiting := [], released := g.released ++ g.waiting }
  else g

/-- One event at the gate: `Add(1)` of a `StartBuild` is `Coordinator.gateAdd`; a build
that calls `Wait` joins the waiters, and goes on at once when the counter is zero; a
`SignalBuild` runs `Coordinator.SignalBuild`. -/
def Gate.step (g : Gate) : GateEvent → Exec Gate
  | .add _ => .ret (Gate.settle { g with coord := g.coord.gateAdd })
  | .wait buildID => .ret (Gate.settle { g with waiting := g.waiting ++ [buildID] })
  | .signal buildID =>
    (g.coord.SignalBuild buildID { UploadDone := some () }).bind fun r =>
      .ret (Gate.settle { g with coord := r.2 })

/-- A sequence of events at the gate. -/
def Gate.run (g : Gate) : List GateEvent → Exec Gate
  | [] => .ret g
  | ev :: evs => (g.step ev).bind fun g1 => g1.run evs

/-- The number of `Add(1)` calls in a sequence of events. -/
def addsIn : List GateEvent → Nat
  | [] => 0
  | .add _ :: evs => addsIn evs + 1
  | .wait _ :: evs => addsIn evs
  | .signal _ :: evs => addsIn evs

/-- The builds that call `Wait` in a sequence of events, in order. -/
def waitedIn : List GateEvent → List ID
  | [] => []
  | .add _ :: evs => waitedIn evs
  | .wait buildID :: evs => buildID :: waitedIn evs
  | .signal _ :: evs => waitedIn evs

/-- The number of `SignalBuild` calls in a sequence of events. -/
def signalsIn : List GateEvent → Nat
  | [] => 0
  | .add _ :: evs => signalsIn evs
  | .wait _ :: evs => signalsIn evs
  | .signal _ :: evs => signalsIn evs + 1

/-- The same event with the build ID of a `SignalBuild` replaced. -/
def GateEvent.resignal (f : ID → ID) : GateEvent → GateEvent
  | .add buildID => .add buildID
  | .wait buildID => .wait buildID
  | .signal buildID => .signal (f buildID)

/-- Modelled from the spec: `api.HeartbeatRequest` (its declaration is not among the
sources). -/
structure HeartbeatRequest where
  WorkerID : WorkerID
  FreeSlots : Int
  FinishedJob : List JobResult
  AddedArtifacts : List ID
deriving DecidableEq, Repr

/-- Modelled from the spec: `api.HeartbeatResponse` (its declaration is not among the
sources). -/
structure HeartbeatResponse where
  JobsToRun : GoMap ID JobSpec

/-- The first loop of `Heartbeat`: `OnJobComplete` for every finished job of the request. -/
def completeAll (workerID : WorkerID) : List JobResult → Scheduler → Exec Scheduler
  | [], sched => .ret sched
  | finishedJob :: rest, sched =>
    (sched.OnJobComplete workerID finishedJob.ID finishedJob).bind fun r =>
      completeAll workerID rest r.2

/-- Method `Coordinator.Heartbeat`: the response pointer (`none` is nil), the error (always
nil) and the coordinator afterwards; `ctxDone` is passed on to `PickJob`. -/
def Coordinator.Heartbeat (c : Coordinator) (ctxDone : Bool) (req : HeartbeatRequest) :
    Exec ((Option HeartbeatResponse × Option String) × Coordinator) :=
  (completeAll req.WorkerID req.FinishedJob c.sched).bind fun sched1 =>
    if req.FreeSlots > 0 then
      (sched1.PickJob ctxDone req.WorkerID).bind fun picked =>
        match picked.1 with
        | none => .ret ((none, none), { c with sched := picked.2 })
        | some a =>
          match picked.2.deref (some a) with
          | none => .panic
          | some pj =>
            .ret ((some { JobsToRun := GoMap.empty.set pj.Job.Job.ID pj.Job }, none),
              { c with sched := picked.2 })
    else
      .ret ((some { JobsToRun := GoMap.empty }, none), { c with sched := sched1 })

/-- The number of parts a `StatusUpdate` sets. -/
def StatusUpdate.parts (u : StatusUpdate) : Nat :=
  (if u.JobFinished.isSome then 1 else 0) + (if u.BuildFailed.isSome then 1 else 0) +
    (if u.BuildFinished.isSome then 1 else 0)

/-- The status updates among a list of frames. -/
def updatesOf : List Frame → List StatusUpdate
  | [] => []
  | .updated u :: rest => u :: updatesOf rest
  | _ :: rest => updatesOf rest

/-! ## Build-status reader (`pkg/api/build_client.go`) -/

/-- One complete line of the response body as `Next` meets it: a line that `json.Unmarshal`
decodes into the given `StatusUpdate`, or a line it rejects. -/
inductive WireLine where
  | frame (update : StatusUpdate)
  | malformed (text : String)
deriving DecidableEq, Repr

/-- The struct `BuildStatusReader`: the complete lines still unread in the body, the error
`ReadBytes` returns once no complete line is left (`io.EOF` at the end of the body), and
the flag `isFinish`. -/
structure BuildStatusReader where
  body : List WireLine
  bodyErr : String
  isFinish : Bool
deriving DecidableEq, Repr

/-- The error text of `io.EOF`. -/
def ioEOF : String := "EOF"

/-- Method `BuildStatusReader.Next`: the update (`none` is nil), the error (`none` is nil) and
the reader afterwards. -/
def BuildStatusReader.Next (reader : BuildStatusReader) :
    (Option StatusUpdate × Option String) × BuildStatusReader :=
  if reader.isFinish then ((none, some ioEOF), reader)
  else
    match reader.body with
    | [] => ((none, some reader.bodyErr), reader)
    | .malformed _ :: rest => ((none, some "invalid character"), { reader with body := rest })
    | .frame statusUpdate :: rest =>
      match statusUpdate.BuildFailed with
      | some failed =>
        if failed.Error = ioEOF then
          ((none, some ioEOF), { reader with body := rest, isFinish := true })
        else ((some statusUpdate, none), { reader with body := rest })
      | none => ((some statusUpdate, none), { reader with body := rest })

/-- Call `Next` the given number of times and collect what the calls return. -/
def BuildStatusReader.nextN (reader : BuildStatusReader) :
    Nat → List (Option StatusUpdate × Option String) × BuildStatusReader
  | 0 => ([], reader)
  | n + 1 =>
    let r := (reader.Next).2.nextN n
    ((reader.Next).1 :: r.1, r.2)

/-! ## Worker (`pkg/worker/worker.go`) -/

/-- What running one process does, as far as `Worker.Run` looks at it, and its exit code,
at which `Worker.Run` does not look.  `startErr` is the error of `StdoutPipe`,
`StderrPipe` or `Start`; `stdoutErr` and `stderrErr` are the errors of the two
`io.ReadAll`. -/
structure ProcRun where
  startErr : Option String
  stdout : List Nat
  stdoutErr : Option String
  stderr : List Nat
  stderrErr : Option String
  exitCode : Int
deriving DecidableEq, Repr

/-- The machine a worker runs on: `render` is `Cmd.Render` against the job context (package
`build`, not among the sources) and `run` tells what the process started with the given
argv, environment and working directory does. -/
structure Host where
  render : Cmd → Except String Cmd
  run : List String → List String → String → ProcRun

/-- The argv `Worker.Run` starts for a rendered command: the command's own, or a shell
`echo -n` into the output path for a command without argv. -/
def argvOf (rendered : Cmd) : List String :=
  match rendered.Exec with
  | some argv => argv
  | none => ["bash", "-c", "echo -n " ++ rendered.CatTemplate ++ " > " ++ rendered.CatOutput]

/-- The command loop of `Worker.Run` for one job, from the given commands on, with `res` the
result built so far.  An error return of `Run` is `.error`; indexing an empty argv fails at
run time.  No branch reads the exit code or leaves the loop because of it. -/
def runCmds (host : Host) (job : JobSpec) : List Cmd → JobResult → Exec (Except String JobResult)
  | [], res => .ret (.ok res)
  | initCmd :: rest, res =>
    match host.render initCmd with
    | .error e => .ret (.error e)
    | .ok rendered =>
      let isCat := rendered.Exec.isNone
      match argvOf rendered with
      | [] => .panic
      | arg0 :: args =>
        let proc := host.run (arg0 :: args) initCmd.Environ initCmd.WorkingDirectory
        let res1 : JobResult := { res with ID := job.Job.ID }
        match proc.startErr with
        | some e => .ret (.error e)
        | none =>
          if isCat then
            match proc.stderrErr with
            | some e => .ret (.error e)
            | none => runCmds host job rest { res1 with Stderr := res1.Stderr ++ proc.stderr }
          else
            match proc.stdoutErr with
            | some e => .ret (.error e)
            | none =>
              match proc.stderrErr with
              | some e => .ret (.error e)
              | none =>
                runCmds host job rest
                  { res1 with Stdout := res1.Stdout ++ proc.stdout,
                              Stderr := res1.Stderr ++ proc.stderr }

/-- The `JobResult` that `Worker.Run` appends to `finished` for a job, and so reports in its
next heartbeat. -/
def jobResult (host : Host) (job : JobSpec) : Exec (Except String JobResult) :=
  runCmds host job job.Job.Cmds JobResult.zero

/-- The process `Worker.Run` runs for a command, when the command renders. -/
def procOf (host : Host) (initCmd : Cmd) : Option ProcRun :=
  match host.render initCmd with
  | .error _ => none
  | .ok rendered => some (host.run (argvOf rendered) initCmd.Environ initCmd.WorkingDirectory)

/-- The stderr bytes of all the given commands, in order. -/
def stderrOfAll (host : Host) : List Cmd → List Nat
  | [] => []
  | initCmd :: rest =>
    (match procOf host initCmd with
      | some proc => proc.stderr
      | none => []) ++ stderrOfAll host rest

/-- Every command renders, has a non-empty argv, starts, and its pipes are read without
error. -/
def runsClean (host : Host) : List Cmd → Bool
  | [] => true
  | initCmd :: rest =>
    (match host.render initCmd with
      | .error _ => false
      | .ok rendered =>
        !(argvOf rendered).isEmpty &&
          (host.run (argvOf rendered) initCmd.Environ initCmd.WorkingDirectory).startErr.isNone &&
          (host.run (argvOf rendered) initCmd.Environ initCmd.WorkingDirectory).stdoutErr.isNone &&
          (host.run (argvOf rendered) initCmd.Environ initCmd.WorkingDirectory).stderrErr.isNone)
      && runsClean host rest

/-! ## Upload handler (`pkg/filecache/handler.go`) -/

/-- Modelled from the spec: `Cache.Write` (`filecache.Cache` is not among the sources) creates
the entry in state `Writing` and fails with "already exists" when the ID has an entry; on
failure it returns no writer. -/
def FileCache.Write (fc : FileCache) (id : ID) : Except String FileCache :=
  match fc.entries id with
  | some _ => .error "already exists"
  | none => .ok { entries := fc.entries.set id ("", .Writing) }

/-- Modelled from the spec: closing the writer commits the entry (`filecache.Cache` is not among
the sources): the entry becomes `Ready`. -/
def FileCache.commit (fc : FileCache) (id : ID) : FileCache :=
  { entries := fc.entries.set id ("", .Ready) }

/-- Modelled from the spec: `abort` releases the entry (`filecache.Cache` is not among the
sources). -/
def FileCache.abort (fc : FileCache) (id : ID) : FileCache :=
  { entries := fun x => if x = id then none else fc.entries x }

/-- The struct `Handler` of the file cache: the cache, the memo `results` (a missing key,
a nil error, or an error), and a log of the IDs `Cache.Write` was called with.  The
single-flight group is left out: requests are served one after the other. -/
structure Handler where
  remoteCache : FileCache
  results : GoMap String (Option String)
  writeLog : List ID

/-- The constructor `NewHandler`. -/
def NewHandler (cache : FileCache) : Handler :=
  { remoteCache := cache, results := GoMap.empty, writeLog := [] }

/-- A `PUT /file` request: whether the query has `id`, its text, whether the body can be
read, the body, and whether writing the content to the cache's writer succeeds. -/
structure UploadRequest where
  hasID : Bool
  artifactStr : String
  bodyOk : Bool
  content : List Nat
  diskOk : Bool
deriving DecidableEq, Repr

/-- What the client of one request sees: a status code, or a connection closed without a
response because the handler failed at run time (the server recovers from it). -/
inductive UploadOutcome where
  | status (code : Nat)
  | aborted
deriving DecidableEq, Repr

/-- Method `UploadHandler.ServeHTTP`; `parseID` is `build.ID.UnmarshalText` (package `build`, not
among the sources).  Inside the function given to `group.Do`: a memoized outcome is
returned as it is; otherwise the deferred function memoizes `resultError` whatever way
the function is left.  After `Cache.Write` the test `err != nil` reads the `err` of the
enclosing handler, which is nil there, so a failed `Cache.Write` goes on to call `Write`
on the nil writer, which fails at run time. -/
def UploadHandler.ServeHTTP (parseID : String → Option ID) (h : Handler) (r : UploadRequest) :
    UploadOutcome × Handler :=
  if ¬ r.hasID then (.status 400, h)
  else
    match parseID r.artifactStr with
    | none => (.status 400, h)
    | some fileID =>
      if ¬ r.bodyOk then (.status 500, h)
      else
        match h.results r.artifactStr with
        | some none => (.status 200, h)
        | some (some _) => (.status 500, h)
        | none =>
          let h1 := { h with writeLog := h.writeLog ++ [fileID] }
          match h1.remoteCache.Write fileID with
          | .error e =>
            (.aborted, { h1 with results := h1.results.set r.artifactStr (some e) })
          | .ok cache1 =>
            if r.diskOk then
              (.status 200,
                { h1 with remoteCache := cache1.commit fileID,
                          results := h1.results.set r.artifactStr none })
            else
              (.status 500,
                { h1 with remoteCache := cache1.abort fileID,
                          results := h1.results.set r.artifactStr (some "write error") })

/-- Serve a sequence of requests one after the other and collect what the clients see. -/
def serveAll (parseID : String → Option ID) : Handler → List UploadRequest →
    List UploadOutcome × Handler
  | h, [] => ([], h)
  | h, r :: rest =>
    let served := UploadHandler.ServeHTTP parseID h r
    let more := serveAll parseID served.2 rest
    (served.1 :: more.1, more.2)

/-- What every step on the scheduler keeps: closed channels stay closed and allocated objects
stay allocated. -/
def Scheduler.Keeps (c c1 : Scheduler) : Prop :=
  (∀ a, c.isFinished a = true → c1.isFinished a = true) ∧
    c.heap.length ≤ c1.heap.length

/-! ## Concrete inputs used in examples -/

/-- A job without inputs and commands. -/
def demoJob (id : ID) (deps : List ID) : Job :=
  { ID := id, Inputs := [], Deps := deps, Cmds := [] }

/-- A job specification with empty maps. -/
def demoSpec (id : ID) : JobSpec :=
  { Job := demoJob id [], SourceFiles := GoMap.empty, Artifacts := GoMap.empty }

/-- The result of a successful run of job 5. -/
def demoResult1 : JobResult :=
  { ID := 5, ExitCode := 0, Stdout := [111, 107], Stderr := [], Error := "" }

/-- The result of a failed run of job 5. -/
def demoResult2 : JobResult :=
  { ID := 5, ExitCode := 7, Stdout := [], Stderr := [33], Error := "exit status 7" }

/-- A fresh scheduler on which job 5 has been scheduled. -/
def demoSched : Scheduler := (NewScheduler.ScheduleJob (demoSpec 5)).2

/-- What another goroutine does between the lookup and the `Put` of a `ScheduleJob` for job 5:
a whole `ScheduleJob` for job 5 on behalf of another build, and the `OnJobComplete` for
that job. -/
def demoAmid (s : Scheduler) : Scheduler :=
  s.after [.schedule (demoSpec 5), .complete "w1" 5 demoResult1]

/-- A fresh scheduler after two overlapping calls of `ScheduleJob` for job 5. -/
def demoOverlapped : Scheduler :=
  (NewScheduler.ScheduleJobAmid demoAmid (fun s => s) (demoSpec 5)).2

/-- A graph with one source file and two jobs, the second depending on the first. -/
def demoGraph : Graph :=
  { SourceFiles := { entries := [(7, "main.txt")], nodup := by decide },
    Jobs := [demoJob 1 [], demoJob 2 [1]] }

/-- An empty file cache. -/
def demoCache : FileCache := { entries := GoMap.empty }

/-- The coordinator after a call that returned, the coordinator as it was otherwise. -/
def afterCall {α : Type} (c : Coordinator) (x : Exec (α × Coordinator)) : Coordinator :=
  match x with
  | .ret r => r.2
  | _ => c

/-- The heartbeat by which worker `w1` asks for a job. -/
def demoAsk : HeartbeatRequest :=
  { WorkerID := "w1", FreeSlots := 1, FinishedJob := [], AddedArtifacts := [] }

/-- The heartbeat by which worker `w1` reports job `id` as finished with exit code 0. -/
def demoReport (id : ID) : HeartbeatRequest :=
  { WorkerID := "w1", FreeSlots := 0,
    FinishedJob := [{ ID := id, ExitCode := 0, Stdout := [], Stderr := [], Error := "" }],
    AddedArtifacts := [id] }

/-- A world in which the client signals once while the build waits at the gate, and worker
`w1` picks and then reports the `k`-th job (whose ID is `k + 1`) while the build waits
for it; the context is never cancelled. -/
def demoWorld : World :=
  { atGate := fun c => afterCall c (c.SignalBuild 42 { UploadDone := some () }),
    atJob := fun k c =>
      let c1 := afterCall c (c.Heartbeat false demoAsk)
      afterCall c1 (c1.Heartbeat false (demoReport (k + 1))),
    ctx := fun _ => { done := false, preferDone := false } }

/-- A fresh response on which every write succeeds. -/
def demoStream : Stream :=
  { frames := [], status := none, isStarted := false, calls := 0, io := fun _ => .ok }

/-- A world in which a second build starts while the first waits at the gate, and then the
client of the first build signals: the second build has added one to the wait group. -/
def demoWorldTwoBuilds : World :=
  { atGate := fun c =>
      afterCall { c with waitSignal := c.waitSignal + 1 }
        (Coordinator.SignalBuild { c with waitSignal := c.waitSignal + 1 } 42
          { UploadDone := some () }),
    atJob := fun _ c => c,
    ctx := fun _ => { done := false, preferDone := false } }

/-- A command with the given argv. -/
def demoCmd (argv : List String) : Cmd :=
  { Exec := some argv, Environ := [], WorkingDirectory := "", CatTemplate := "", CatOutput := "" }

/-- A host that renders every command to itself and on which the shell command `exit 7`
writes one byte to stderr and exits with code 7, while every other process writes
nothing and exits with code 0. -/
def demoHost : Host :=
  { render := fun cmd => .ok cmd,
    run := fun argv _ _ =>
      if argv = ["bash", "-c", "exit 7"] then
        { startErr := none, stdout := [], stdoutErr := none, stderr := [33], stderrErr := none,
          exitCode := 7 }
      else
        { startErr := none, stdout := [], stdoutErr := none, stderr := [], stderrErr := none,
          exitCode := 0 } }

/-- A job whose first command exits with code 7 and whose second command would run after
it. -/
def demoFailingJob : JobSpec :=
  { Job := { ID := 5, Inputs := [], Deps := [],
             Cmds := [demoCmd ["bash", "-c", "exit 7"], demoCmd ["bash", "-c", "exit 0"]] },
    SourceFiles := GoMap.empty, Artifacts := GoMap.empty }

/-- A file cache that already holds the file with ID 7. -/
def demoFullCache : FileCache :=
  { entries := GoMap.empty.set 7 ("main.txt", .Ready) }

/-- A reading of ID texts: the text "7" is ID 7, every other text is rejected. -/
def demoParseID (text : String) : Option ID :=
  if text = "7" then some 7 else none

/-- A `PUT /file?id=7` request whose body is read and written without error. -/
def demoPut : UploadRequest :=
  { hasID := true, artifactStr := "7", bodyOk := true, content := [104, 105], diskOk := true }

/-- A gate that no build has reached yet. -/
def demoGate : Gate :=
  { coord := NewCoordinator demoCache, waiting := [], released := [] }

/-- Build 42 and build 7 add one each, and the client of build 42 signals. -/
def demoGateEarly : List GateEvent :=
  [.add 42, .add 7, .signal 42]

/-- The gate after `demoGateEarly`: the counter is one. -/
def demoGateShut : Gate :=
  { coord := { NewCoordinator demoCache with waitSignal := 1 }, waiting := [], released := [] }

/-- Build 42 and build 7 add one each, build 7 waits, the client of build 42 signals,
build 42 waits, and the client of build 42 signals again. -/
def demoGateEvents : List GateEvent :=
  [.add 42, .add 7, .wait 7, .signal 42, .wait 42, .signal 42]

/-- The gate after `demoGateEvents`: both builds have gone on. -/
def demoGateOpen : Gate :=
  { coord := NewCoordinator demoCache, waiting := [], released := [7, 42] }

/-! ## BlockingQueue: FIFO order and the closed-queue contract -/

theorem Put_open (q : BlockingQueue) (job : PJPtr) (hq : q.closed = false) :
    q.Put job = { queue := q.queue ++ [job], closed := false } := by
  cases q with
  | mk items closed =>
    simp only at hq
    subst hq
    simp [BlockingQueue.Put]

theorem Put_closed (q : BlockingQueue) (job : PJPtr) (hq : q.closed = true) :
    q.Put job = q := by
  simp [BlockingQueue.Put, hq]

theorem Take_nil_open (q : BlockingQueue) (hq : q.closed = false) (he : q.queue = []) :
    q.Take = .blocked := by
  simp [BlockingQueue.Take, hq, he]

theorem Take_nil_closed (q : BlockingQueue) (hq : q.closed = true) (he : q.queue = []) :
    q.Take = .ret ((none, false), q) := by
  simp [BlockingQueue.Take, hq, he]

theorem Take_cons (q : BlockingQueue) (head : PJPtr) (rest : List PJPtr)
    (he : q.queue = head :: rest) :
    q.Take = .ret ((head, true), { queue := rest, closed := q.closed }) := by
  simp [BlockingQueue.Take, he]

theorem runQueue_take_cons (ops : List QueueOp) (q : BlockingQueue) (head : PJPtr)
    (rest : List PJPtr) (he : q.queue = head :: rest) :
    runQueue (.take :: ops) q =
      (head :: (runQueue ops { queue := rest, closed := q.closed }).1,
        (runQueue ops { queue := rest, closed := q.closed }).2) := by
  simp [runQueue, Take_cons q head rest he]

theorem runQueue_take_nil (ops : List QueueOp) (q : BlockingQueue) (he : q.queue = []) :
    runQueue (.take :: ops) q = runQueue ops q := by
  cases hq : q.closed with
  | false => simp [runQueue, Take_nil_open q hq he]
  | true => simp [runQueue, Take_nil_closed q hq he]

theorem runQueue_open (ops : List QueueOp) :
    ∀ q : BlockingQueue, q.closed = false → noClose ops = true →
      (runQueue ops q).1 ++ (runQueue ops q).2.queue = q.queue ++ putsOf ops ∧
        (runQueue ops q).2.closed = false := by
  induction ops with
  | nil => intro q hq _; simp [runQueue, putsOf, hq]
  | cons op ops ih =>
    intro q hq hn
    cases op with
    | put job =>
      have h := ih (q.Put job) (by simp [Put_open q job hq]) (by simpa [noClose] using hn)
      simp only [runQueue, putsOf]
      rw [Put_open q job hq] at h ⊢
      simpa using h
    | close => simp [noClose] at hn
    | take =>
      cases he : q.queue with
      | nil =>
        rw [runQueue_take_nil ops q he]
        have h := ih q hq (by simpa [noClose] using hn)
        simpa [putsOf, he] using h
      | cons head rest =>
        rw [runQueue_take_cons ops q head rest he]
        have h := ih { queue := rest, closed := q.closed } hq (by simpa [noClose] using hn)
        simpa [putsOf] using h

theorem runQueue_closed (ops : List QueueOp) :
    ∀ q : BlockingQueue, q.closed = true → (runQueue ops q).2.closed = true := by
  induction ops with
  | nil => intro q hq; simpa [runQueue] using hq
  | cons op ops ih =>
    intro q hq
    cases op with
    | put job => simpa [runQueue, Put_closed q job hq] using ih q hq
    | close => simpa [runQueue] using ih q.Close (by simp [BlockingQueue.Close])
    | take =>
      cases he : q.queue with
      | nil => rw [runQueue_take_nil ops q he]; exact ih q hq
      | cons head rest =>
        rw [runQueue_take_cons ops q head rest he]
        exact ih { queue := rest, closed := q.closed } hq

/-- C8: on a queue that is not closed, for every sequence of `Put` and `Take` calls, the jobs
returned by the successful `Take`s followed by the jobs still queued are exactly the jobs
queued at the start followed by the jobs that were `Put`, in that order; so the jobs
returned are an initial segment of them, each returned once and in `Put` order, and they
are all of the jobs `Put` on a fresh queue once the queue is empty again. -/
theorem BlockingQueue_fifo (ops : List QueueOp) (q : BlockingQueue)
    (hq : q.closed = false) (hn : noClose ops = true) :
    (runQueue ops q).1 ++ (runQueue ops q).2.queue = q.queue ++ putsOf ops ∧
      (runQueue ops q).1 <+: q.queue ++ putsOf ops ∧
      (q.queue = [] → (runQueue ops q).2.queue = [] → (runQueue ops q).1 = putsOf ops) := by
  have h := (runQueue_open ops q hq hn).1
  refine ⟨h, ⟨(runQueue ops q).2.queue, h⟩, ?_⟩
  intro h0 h1
  simpa [h0, h1] using h

theorem BlockingQueue_fifo_witness :
    (runQueue [.put (some 1), .put (some 2), .take, .put (some 3), .take, .take] NewQueue).1
      = [some 1, some 2, some 3] := by
  have h := (BlockingQueue_fifo
    [.put (some 1), .put (some 2), .take, .put (some 3), .take, .take] NewQueue rfl rfl).2.2
    rfl rfl
  simpa [putsOf] using h

/-- C9: after `Close`, whatever calls follow, the queue stays closed; every `Put` leaves it
as it is; a `Take` returns `(nil, false)` if and only if the queue is empty, and on a
non-empty queue it returns `(head, true)` and removes the head; `Close` itself keeps the
items that were queued. -/
theorem BlockingQueue_closed_contract (q : BlockingQueue) (ops : List QueueOp) :
    q.Close.queue = q.queue ∧
      (runQueue ops q.Close).2.closed = true ∧
      (∀ job, (runQueue ops q.Close).2.Put job = (runQueue ops q.Close).2) ∧
      ((∃ q2, (runQueue ops q.Close).2.Take = .ret ((none, false), q2)) ↔
        (runQueue ops q.Close).2.queue = []) ∧
      (∀ head rest, (runQueue ops q.Close).2.queue = head :: rest →
        (runQueue ops q.Close).2.Take = .ret ((head, true), { queue := rest, closed := true })) := by
  have hc : (runQueue ops q.Close).2.closed = true :=
    runQueue_closed ops q.Close (by simp [BlockingQueue.Close])
  refine ⟨rfl, hc, fun job => Put_closed _ job hc, ?_, ?_⟩
  · constructor
    · rintro ⟨q2, h2⟩
      cases he : (runQueue ops q.Close).2.queue with
      | nil => rfl
      | cons head rest =>
        rw [Take_cons _ head rest he] at h2
        simp at h2
    · intro he
      exact ⟨_, Take_nil_closed _ hc he⟩
  · intro head rest he
    rw [Take_cons _ head rest he, hc]

theorem BlockingQueue_closed_contract_witness :
    (runQueue [.put (some 9)] (BlockingQueue.mk [some 1, some 2] false).Close).2.Take
      = .ret ((some 1, true), { queue := [some 2], closed := true }) :=
  (BlockingQueue_closed_contract (BlockingQueue.mk [some 1, some 2] false) [.put (some 9)]).2.2.2.2
    (some 1) [some 2] rfl

/-! ## Scheduler: completion, scheduling and picking -/

theorem OnJobComplete_registered (c : Scheduler) (w : WorkerID) (jobID : ID) (res : JobResult)
    (a : Nat) (pj : PendingJob) (hreg : c.resJobs jobID = some (some a))
    (hheap : c.heap[a]? = some pj) :
    c.OnJobComplete w jobID res =
      .ret (true, c.store a { pj with Finished := true, Result := res }) := by
  unfold Scheduler.OnJobComplete
  simp only [hreg, hheap]
  cases hf : pj.Finished <;> simp [closeChan]

theorem OnJobComplete_ret (c : Scheduler) (w : WorkerID) (jobID : ID) (res : JobResult)
    (r : Bool × Scheduler) (h : c.OnJobComplete w jobID res = .ret r) :
    ∃ a pj, c.resJobs jobID = some (some a) ∧ c.heap[a]? = some pj ∧
      r = (true, c.store a { pj with Finished := true, Result := res }) := by
  cases hreg : c.resJobs jobID with
  | none => simp [Scheduler.OnJobComplete, hreg] at h
  | some p =>
    cases p with
    | none => simp [Scheduler.OnJobComplete, hreg] at h
    | some a =>
      cases hheap : c.heap[a]? with
      | none => simp [Scheduler.OnJobComplete, hreg, hheap] at h
      | some pj =>
        rw [OnJobComplete_registered c w jobID res a pj hreg hheap] at h
        refine ⟨a, pj, rfl, hheap, ?_⟩
        cases h
        rfl

theorem store_heap (c : Scheduler) (a b : Nat) (pj old : PendingJob)
    (hold : c.heap[a]? = some old) :
    (c.store a pj).heap[b]? = if a = b then some pj else c.heap[b]? := by
  have hlt : a < c.heap.length := (List.getElem?_eq_some.mp hold).1
  simp [Scheduler.store, List.getElem?_set, hlt]

theorem store_resultSlot (c : Scheduler) (jobID : ID) (a : Nat) (pj old : PendingJob)
    (hreg : c.resJobs jobID = some (some a)) (hold : c.heap[a]? = some old) :
    (c.store a pj).resultSlot jobID = some pj.Result := by
  have h := store_heap c a a pj old hold
  have hr : (c.store a pj).resJobs jobID = some (some a) := hreg
  simp [Scheduler.resultSlot, hr, Scheduler.deref, h]

theorem store_isFinished (c : Scheduler) (a b : Nat) (pj old : PendingJob)
    (hold : c.heap[a]? = some old) :
    (c.store a pj).isFinished b = if a = b then pj.Finished else c.isFinished b := by
  unfold Scheduler.isFinished
  rw [store_heap c a b pj old hold]
  by_cases hab : a = b <;> simp [hab]

theorem Keeps_refl (c : Scheduler) : c.Keeps c :=
  ⟨fun _ h => h, Nat.le_refl _⟩

theorem Keeps_trans (c c1 c2 : Scheduler) (h1 : c.Keeps c1) (h2 : c1.Keeps c2) : c.Keeps c2 :=
  ⟨fun a h => h2.1 a (h1.1 a h), Nat.le_trans h1.2 h2.2⟩

theorem Keeps_of_heap_eq (c c1 : Scheduler) (hh : c1.heap = c.heap) : c.Keeps c1 := by
  refine ⟨?_, ?_⟩
  · intro a h
    simpa [Scheduler.isFinished, hh] using h
  · simp [hh]

theorem OnJobComplete_keeps (c : Scheduler) (w : WorkerID) (jobID : ID) (res : JobResult)
    (r : Bool × Scheduler) (h : c.OnJobComplete w jobID res = .ret r) : c.Keeps r.2 := by
  obtain ⟨a, pj, _, hheap, rfl⟩ := OnJobComplete_ret c w jobID res r h
  refine ⟨?_, ?_⟩
  · intro b hb
    simp only
    rw [store_isFinished c a b _ pj hheap]
    by_cases hab : a = b <;> simp [hab, hb]
  · simp [Scheduler.store]

theorem OnJobComplete_registry (c : Scheduler) (w : WorkerID) (jobID : ID) (res : JobResult)
    (r : Bool × Scheduler) (h : c.OnJobComplete w jobID res = .ret r) :
    r.2.resJobs = c.resJobs := by
  obtain ⟨a, pj, _, _, rfl⟩ := OnJobComplete_ret c w jobID res r h
  rfl

theorem ScheduleJob_known (c : Scheduler) (job : JobSpec) (p : PJPtr)
    (h : c.resJobs job.Job.ID = some p) : c.ScheduleJob job = (p, c) := by
  simp [Scheduler.ScheduleJob, Scheduler.ScheduleJobAmid, h]

theorem ScheduleJobAmid_known (c : Scheduler) (amidPut amidRegister : Scheduler → Scheduler)
    (job : JobSpec) (p : PJPtr) (h : c.resJobs job.Job.ID = some p) :
    c.ScheduleJobAmid amidPut amidRegister job = (p, c) := by
  simp [Scheduler.ScheduleJobAmid, h]

theorem ScheduleJob_fresh (c : Scheduler) (job : JobSpec) (h : c.resJobs job.Job.ID = none) :
    c.ScheduleJob job =
      (some c.heap.length,
        { queue := c.queue.Put (some c.heap.length),
          Artifacts := c.Artifacts,
          resJobs := c.resJobs.set job.Job.ID (some c.heap.length),
          heap := c.heap ++ [{ Job := job, Finished := false, Result := JobResult.zero }],
          helping := c.helping }) := by
  simp [Scheduler.ScheduleJob, Scheduler.ScheduleJobAmid, Scheduler.createPending,
    Scheduler.register, h]

theorem createPending_keeps (c : Scheduler) (job : JobSpec) :
    c.Keeps (c.createPending job).2 := by
  refine ⟨?_, ?_⟩
  · intro a ha
    unfold Scheduler.isFinished at ha ⊢
    cases hh : c.heap[a]? with
    | none => simp [hh] at ha
    | some pj =>
      have hlt : a < c.heap.length := (List.getElem?_eq_some.mp hh).1
      simp only [Scheduler.createPending, List.getElem?_append_left hlt, hh]
      simpa [hh] using ha
  · simp [Scheduler.createPending]

theorem ScheduleJob_keeps (c : Scheduler) (job : JobSpec) : c.Keeps (c.ScheduleJob job).2 := by
  cases h : c.resJobs job.Job.ID with
  | some p => rw [ScheduleJob_known c job p h]; exact Keeps_refl c
  | none =>
    have hk := createPending_keeps c job
    simp only [Scheduler.ScheduleJob, Scheduler.ScheduleJobAmid, h]
    exact Keeps_trans _ _ _ hk (Keeps_of_heap_eq _ _ rfl)

theorem ScheduleJob_registry (c : Scheduler) (job : JobSpec) (id : ID) (p : PJPtr)
    (hp : c.resJobs id = some p) : (c.ScheduleJob job).2.resJobs id = some p := by
  cases h : c.resJobs job.Job.ID with
  | some q => rw [ScheduleJob_known c job q h]; exact hp
  | none =>
    rw [ScheduleJob_fresh c job h]
    have hne : id ≠ job.Job.ID := by
      intro he
      rw [he, h] at hp
      cases hp
    simp [GoMap.set, hne, hp]

theorem PickJob_keeps (c : Scheduler) (ctxDone : Bool) (w : WorkerID) (r : PJPtr × Scheduler)
    (h : c.PickJob ctxDone w = .ret r) : c.Keeps r.2 ∧ r.2.resJobs = c.resJobs := by
  unfold Scheduler.PickJob at h
  split at h
  · split at h
    · cases h; exact ⟨Keeps_of_heap_eq _ _ rfl, rfl⟩
    · cases h
  · cases h
  · split at h
    · cases h; exact ⟨Keeps_of_heap_eq _ _ rfl, rfl⟩
    · split at h
      · cases h
      · cases h; exact ⟨Keeps_of_heap_eq _ _ rfl, rfl⟩

theorem helperResumes_keeps (c c1 : Scheduler) (h : c.helperResumes = some c1) :
    c.Keeps c1 ∧ c1.resJobs = c.resJobs := by
  simp only [Scheduler.helperResumes] at h
  split at h
  · cases h
  · split at h
    · cases h; exact ⟨Keeps_of_heap_eq _ _ rfl, rfl⟩
    · cases h

theorem applyOp_keeps (c c1 : Scheduler) (op : SchedOp) (h : c.applyOp op = some c1) :
    c.Keeps c1 := by
  cases op with
  | locate id => simp [Scheduler.applyOp] at h; subst h; exact Keeps_refl c
  | complete w j r =>
    simp only [Scheduler.applyOp] at h
    cases hr : c.OnJobComplete w j r with
    | ret x =>
      rw [hr] at h
      simp [Exec.value?] at h
      subst h
      exact OnJobComplete_keeps c w j r x hr
    | panic => rw [hr] at h; simp [Exec.value?] at h
    | blocked => rw [hr] at h; simp [Exec.value?] at h
  | schedule job =>
    simp [Scheduler.applyOp] at h
    subst h
    exact ScheduleJob_keeps c job
  | pick ctxDone w =>
    simp only [Scheduler.applyOp] at h
    cases hr : c.PickJob ctxDone w with
    | ret x =>
      rw [hr] at h
      simp [Exec.value?] at h
      subst h
      exact (PickJob_keeps c ctxDone w x hr).1
    | panic => rw [hr] at h; simp [Exec.value?] at h
    | blocked => rw [hr] at h; simp [Exec.value?] at h
  | stop =>
    simp [Scheduler.applyOp] at h
    subst h
    exact Keeps_of_heap_eq _ _ rfl
  | helper =>
    simp only [Scheduler.applyOp] at h
    exact (helperResumes_keeps c c1 h).1
  | create job =>
    simp [Scheduler.applyOp] at h
    subst h
    exact createPending_keeps c job
  | register id pending =>
    simp [Scheduler.applyOp] at h
    subst h
    exact Keeps_of_heap_eq _ _ rfl

theorem applyOp_registry (c c1 : Scheduler) (op : SchedOp) (id : ID) (p : PJPtr)
    (h : c.applyOp op = some c1) (hno : noRegister id [op] = true)
    (hp : c.resJobs id = some p) : c1.resJobs id = some p := by
  cases op with
  | locate id2 => simp [Scheduler.applyOp] at h; subst h; exact hp
  | complete w j r =>
    simp only [Scheduler.applyOp] at h
    cases hr : c.OnJobComplete w j r with
    | ret x =>
      rw [hr] at h
      simp [Exec.value?] at h
      subst h
      rw [OnJobComplete_registry c w j r x hr]
      exact hp
    | panic => rw [hr] at h; simp [Exec.value?] at h
    | blocked => rw [hr] at h; simp [Exec.value?] at h
  | schedule job =>
    simp [Scheduler.applyOp] at h
    subst h
    exact ScheduleJob_registry c job id p hp
  | pick ctxDone w =>
    simp only [Scheduler.applyOp] at h
    cases hr : c.PickJob ctxDone w with
    | ret x =>
      rw [hr] at h
      simp [Exec.value?] at h
      subst h
      rw [(PickJob_keeps c ctxDone w x hr).2]
      exact hp
    | panic => rw [hr] at h; simp [Exec.value?] at h
    | blocked => rw [hr] at h; simp [Exec.value?] at h
  | stop =>
    simp [Scheduler.applyOp] at h
    subst h
    exact hp
  | helper =>
    simp only [Scheduler.applyOp] at h
    rw [(helperResumes_keeps c c1 h).2]
    exact hp
  | create job =>
    simp [Scheduler.applyOp] at h
    subst h
    exact hp
  | register id2 pending =>
    simp [Scheduler.applyOp] at h
    subst h
    have hne : id ≠ id2 := by
      intro he
      simp [noRegister, he] at hno
    simp [Scheduler.register, GoMap.set, hne, hp]

theorem runOps_keeps (ops : List SchedOp) :
    ∀ c c1 : Scheduler, c.runOps ops = some c1 → c.Keeps c1 := by
  induction ops with
  | nil =>
    intro c c1 h
    simp [Scheduler.runOps] at h
    subst h
    exact Keeps_refl c
  | cons op ops ih =>
    intro c c1 h
    simp only [Scheduler.runOps] at h
    cases ha : c.applyOp op with
    | none => rw [ha] at h; cases h
    | some c2 =>
      rw [ha] at h
      exact Keeps_trans c c2 c1 (applyOp_keeps c c2 op ha) (ih c2 c1 h)

theorem noRegister_cons (id : ID) (op : SchedOp) (ops : List SchedOp)
    (h : noRegister id (op :: ops) = true) :
    noRegister id [op] = true ∧ noRegister id ops = true := by
  cases op <;> simp_all [noRegister]

theorem runOps_registry (id : ID) (p : PJPtr) (ops : List SchedOp) :
    ∀ c c1 : Scheduler, c.runOps ops = some c1 → noRegister id ops = true →
      c.resJobs id = some p → c1.resJobs id = some p := by
  induction ops with
  | nil =>
    intro c c1 h _ hp
    simp [Scheduler.runOps] at h
    subst h
    exact hp
  | cons op ops ih =>
    intro c c1 h hno hp
    simp only [Scheduler.runOps] at h
    obtain ⟨hno1, hno2⟩ := noRegister_cons id op ops hno
    cases ha : c.applyOp op with
    | none => rw [ha] at h; cases h
    | some c2 =>
      rw [ha] at h
      exact ih c2 c1 h hno2 (applyOp_registry c c2 op id p ha hno1 hp)

theorem isFinished_heap (c : Scheduler) (a : Nat) (h : c.isFinished a = true) :
    ∃ pj, c.heap[a]? = some pj ∧ pj.Finished = true := by
  unfold Scheduler.isFinished at h
  cases hh : c.heap[a]? with
  | none => simp [hh] at h
  | some pj => exact ⟨pj, rfl, by simpa [hh] using h⟩

/-- C4 (as the code has it): for a registered job, `OnJobComplete` with `r1` and then with
`r2` both return `true`; the slot holds `r1` after the first call and `r2` after the
second, which leaves the channel closed and changes nothing but the result slot of that
pending job. -/
theorem OnJobComplete_last_result (c : Scheduler) (w1 w2 : WorkerID) (jobID : ID)
    (r1 r2 : JobResult) (a : Nat) (pj : PendingJob)
    (hreg : c.resJobs jobID = some (some a)) (hheap : c.heap[a]? = some pj) :
    ∃ c1 c2, c.OnJobComplete w1 jobID r1 = .ret (true, c1) ∧
      c1.resultSlot jobID = some r1 ∧ c1.isFinished a = true ∧
      c1.OnJobComplete w2 jobID r2 = .ret (true, c2) ∧
      c2.resultSlot jobID = some r2 ∧ c2.isFinished a = true ∧
      c2.queue = c1.queue ∧ c2.Artifacts = c1.Artifacts ∧ c2.resJobs = c1.resJobs ∧
      (∀ b, b ≠ a → c2.heap[b]? = c1.heap[b]?) ∧
      (∃ pj2, c2.heap[a]? = some pj2 ∧ pj2.Job = pj.Job) := by
  have h1 := OnJobComplete_registered c w1 jobID r1 a pj hreg hheap
  have hheap1 : (c.store a { pj with Finished := true, Result := r1 }).heap[a]? =
      some { pj with Finished := true, Result := r1 } := by
    rw [store_heap c a a _ pj hheap]; simp
  have hreg1 : (c.store a { pj with Finished := true, Result := r1 }).resJobs jobID =
      some (some a) := hreg
  have h2 := OnJobComplete_registered _ w2 jobID r2 a _ hreg1 hheap1
  refine ⟨_, _, h1, ?_, ?_, h2, ?_, ?_, rfl, rfl, rfl, ?_, ?_⟩
  · exact store_resultSlot c jobID a _ pj hreg hheap
  · rw [store_isFinished c a a _ pj hheap]; simp
  · exact store_resultSlot _ jobID a _ _ hreg1 hheap1
  · rw [store_isFinished _ a a _ _ hheap1]; simp
  · intro b hb
    rw [store_heap _ a b _ _ hheap1]
    simp [Ne.symm hb]
  · refine ⟨{ Job := pj.Job, Finished := true, Result := r2 }, ?_, rfl⟩
    rw [store_heap _ a a _ _ hheap1]; simp

theorem OnJobComplete_last_result_witness :
    ∃ c1 c2, demoSched.OnJobComplete "w1" 5 demoResult1 = .ret (true, c1) ∧
      c1.resultSlot 5 = some demoResult1 ∧ c1.isFinished 0 = true ∧
      c1.OnJobComplete "w2" 5 demoResult2 = .ret (true, c2) ∧
      c2.resultSlot 5 = some demoResult2 ∧ c2.isFinished 0 = true ∧
      c2.queue = c1.queue ∧ c2.Artifacts = c1.Artifacts ∧ c2.resJobs = c1.resJobs ∧
      (∀ b, b ≠ 0 → c2.heap[b]? = c1.heap[b]?) ∧
      (∃ pj2, c2.heap[0]? = some pj2 ∧ pj2.Job = demoSpec 5) :=
  OnJobComplete_last_result demoSched "w1" "w2" 5 demoResult1 demoResult2 0
    { Job := demoSpec 5, Finished := false, Result := JobResult.zero } rfl rfl

/-- C4 (as stated) fails: after `OnJobComplete` for job 5 with `demoResult1` and then with
`demoResult2`, the result slot holds `demoResult2`, not `demoResult1`. -/
theorem OnJobComplete_second_overwrites :
    ((demoSched.OnJobComplete "w1" 5 demoResult1).bind fun x =>
        x.2.OnJobComplete "w2" 5 demoResult2).value?.map (fun x => x.2.resultSlot 5)
      = some (some demoResult2) ∧
    ((demoSched.OnJobComplete "w1" 5 demoResult1).bind fun x =>
        x.2.OnJobComplete "w2" 5 demoResult2).value?.map (fun x => x.2.resultSlot 5)
      ≠ some (some demoResult1) := by
  decide

/-- A closed channel stays closed: after any sequence of steps on the scheduler, the parts of
overlapping `ScheduleJob` calls included, every pending job that had finished has still
finished. -/
theorem closed_channel_stays_closed (c c1 : Scheduler) (ops : List SchedOp) (a : Nat)
    (hrun : c.runOps ops = some c1) (hfin : c.isFinished a = true) :
    c1.isFinished a = true :=
  (runOps_keeps ops c c1 hrun).1 a hfin

/-- No call of `OnJobComplete` fails on a second close: for an ID registered to an allocated
pending job it returns `true` and leaves that job finished, whether its channel was open
or closed before. -/
theorem OnJobComplete_no_double_close (c : Scheduler) (w : WorkerID) (jobID : ID)
    (res : JobResult) (a : Nat) (pj : PendingJob)
    (hreg : c.resJobs jobID = some (some a)) (hheap : c.heap[a]? = some pj) :
    ∃ c1, c.OnJobComplete w jobID res = .ret (true, c1) ∧ c1.isFinished a = true := by
  refine ⟨_, OnJobComplete_registered c w jobID res a pj hreg hheap, ?_⟩
  rw [store_isFinished c a a _ pj hheap]
  simp

/-- C5 fails on the code when two `ScheduleJob` calls for one ID overlap.  The second call
misses the lookup before the first call registers job 5; the first call's job is completed,
so the job registered under 5 has finished; then the second call creates another pending
job, queues it and registers it in place of the first.  The job registered under 5 is
pending again, and a later `OnJobComplete` for job 5 finds its channel open and closes
it.  The channel of the first pending job stays closed throughout. -/
theorem registered_job_pending_again :
    NewScheduler.resJobs 5 = none ∧
    (demoAmid NewScheduler).jobFinished 5 = some true ∧
    (NewScheduler.ScheduleJobAmid demoAmid (fun s => s) (demoSpec 5)).1 = some 1 ∧
    demoOverlapped.jobFinished 5 = some false ∧
    demoOverlapped.isFinished 0 = true ∧
    demoOverlapped.queue.queue = [some 0, some 1] ∧
    (demoOverlapped.OnJobComplete "w1" 5 demoResult2).value?.map
      (fun r => (r.2.isFinished 0, r.2.isFinished 1, r.2.jobFinished 5)) =
        some (true, true, some true) := by
  decide

theorem count_fresh_pointer (items : List PJPtr) (n : Nat)
    (h : ∀ b, some b ∈ items → b < n) : (items ++ [some n]).count (some n) = 1 := by
  have h0 : items.count (some n) = 0 := by
    rw [List.count_eq_zero]
    intro hm
    exact Nat.lt_irrefl n (h n hm)
  simp [List.count_append, h0]

/-- C6 (as the code has it): a `ScheduleJob` whose lookup finds the ID not registered,
whatever other goroutines do between its critical sections, returns a new pending job with
an open channel and a zero result, hands it to `Put` (on a queue that is not closed it is
appended, once, and on a closed queue the queue stays as it is) and then registers it
under the ID, changing nothing else.  After any further steps on the scheduler among
which there is no registration by an overlapping `ScheduleJob` for the same ID,
`ScheduleJob` with any spec of that ID returns that same pending job and changes
nothing, whatever other goroutines do meanwhile. -/
theorem ScheduleJob_idempotent (c : Scheduler) (amidPut amidRegister : Scheduler → Scheduler)
    (job : JobSpec) (hfresh : c.resJobs job.Job.ID = none) :
    c.ScheduleJobAmid amidPut amidRegister job =
      (some (amidPut c).heap.length,
        (amidRegister ((amidPut c).createPending job).2).register job.Job.ID
          (some (amidPut c).heap.length)) ∧
    c.ScheduleJob job =
      (some c.heap.length,
        (c.createPending job).2.register job.Job.ID (some c.heap.length)) ∧
    ((amidPut c).createPending job).2.deref (some (amidPut c).heap.length) =
      some { Job := job, Finished := false, Result := JobResult.zero } ∧
    (∀ b, b < (amidPut c).heap.length →
      ((amidPut c).createPending job).2.heap[b]? = (amidPut c).heap[b]?) ∧
    ((amidPut c).createPending job).2.resJobs = (amidPut c).resJobs ∧
    ((amidPut c).createPending job).2.Artifacts = (amidPut c).Artifacts ∧
    ((amidPut c).queue.closed = false →
      ((amidPut c).createPending job).2.queue.queue =
        (amidPut c).queue.queue ++ [some (amidPut c).heap.length]) ∧
    ((amidPut c).queue.closed = false →
      (∀ b, some b ∈ (amidPut c).queue.queue → b < (amidPut c).heap.length) →
      ((amidPut c).createPending job).2.queue.queue.count (some (amidPut c).heap.length) = 1) ∧
    ((amidPut c).queue.closed = true →
      ((amidPut c).createPending job).2.queue = (amidPut c).queue) ∧
    (c.ScheduleJobAmid amidPut amidRegister job).2.resJobs =
      (amidRegister ((amidPut c).createPending job).2).resJobs.set job.Job.ID
        (some (amidPut c).heap.length) ∧
    (c.ScheduleJobAmid amidPut amidRegister job).2.queue =
      (amidRegister ((amidPut c).createPending job).2).queue ∧
    (c.ScheduleJobAmid amidPut amidRegister job).2.heap =
      (amidRegister ((amidPut c).createPending job).2).heap ∧
    (∀ ops c2, (c.ScheduleJobAmid amidPut amidRegister job).2.runOps ops = some c2 →
      noRegister job.Job.ID ops = true →
      ∀ job2 : JobSpec, job2.Job.ID = job.Job.ID →
        c2.ScheduleJob job2 = (some (amidPut c).heap.length, c2) ∧
        ∀ amidPut2 amidRegister2,
          c2.ScheduleJobAmid amidPut2 amidRegister2 job2 =
            (some (amidPut c).heap.length, c2)) := by
  have hamid : c.ScheduleJobAmid amidPut amidRegister job =
      (some (amidPut c).heap.length,
        (amidRegister ((amidPut c).createPending job).2).register job.Job.ID
          (some (amidPut c).heap.length)) := by
    simp [Scheduler.ScheduleJobAmid, hfresh, Scheduler.createPending]
  have hplain : c.ScheduleJob job =
      (some c.heap.length,
        (c.createPending job).2.register job.Job.ID (some c.heap.length)) := by
    simp [Scheduler.ScheduleJob, Scheduler.ScheduleJobAmid, hfresh, Scheduler.createPending]
  rw [hamid]
  refine ⟨rfl, hplain, ?_, ?_, rfl, rfl, ?_, ?_, ?_, rfl, rfl, rfl, ?_⟩
  · simp [Scheduler.deref, Scheduler.createPending]
  · intro b hb
    exact List.getElem?_append_left hb
  · intro hq
    simp [Scheduler.createPending, Put_open (amidPut c).queue _ hq]
  · intro hq hwf
    simp only [Scheduler.createPending, Put_open (amidPut c).queue _ hq]
    exact count_fresh_pointer (amidPut c).queue.queue (amidPut c).heap.length hwf
  · intro hq
    exact Put_closed (amidPut c).queue _ hq
  · intro ops c2 hrun hno job2 hid
    have hreg : c2.resJobs job2.Job.ID = some (some (amidPut c).heap.length) := by
      rw [hid]
      apply runOps_registry job.Job.ID _ ops _ c2 hrun hno
      simp [Scheduler.register, GoMap.set]
    exact ⟨ScheduleJob_known c2 job2 _ hreg,
      fun amidPut2 amidRegister2 =>
        ScheduleJobAmid_known c2 amidPut2 amidRegister2 job2 _ hreg⟩

theorem ScheduleJob_idempotent_witness :
    (NewScheduler.ScheduleJob (demoSpec 5)).2.queue.queue = [some 0] ∧
    (NewScheduler.ScheduleJob (demoSpec 5)).2.queue.queue.count (some 0) = 1 ∧
    demoSched.ScheduleJob (demoSpec 5) = (some 0, demoSched) ∧
    (NewScheduler.ScheduleJobAmid demoAmid (fun s => s) (demoSpec 5)).1 = some 1 ∧
    (NewScheduler.ScheduleJobAmid demoAmid (fun s => s) (demoSpec 5)).2.resJobs 5 =
      some (some 1) := by
  have h := ScheduleJob_idempotent NewScheduler (fun s => s) (fun s => s) (demoSpec 5) rfl
  have h2 := ScheduleJob_idempotent NewScheduler demoAmid (fun s => s) (demoSpec 5) rfl
  refine ⟨h.2.2.2.2.2.2.1 rfl, h.2.2.2.2.2.2.2.1 rfl ?_,
    (h.2.2.2.2.2.2.2.2.2.2.2.2 [] demoSched rfl rfl (demoSpec 5) rfl).1, ?_, ?_⟩
  · intro b hb
    simp [NewScheduler, NewQueue] at hb
  · rw [h2.1]
    rfl
  · rw [h2.1]
    rfl

/-- C6 (as stated) fails after `Stop`: job 5 is not registered, the first `ScheduleJob`
registers a pending job for it, and the queue is still empty: the job was not appended. -/
theorem ScheduleJob_closed_queue_not_appended :
    NewScheduler.Stop.resJobs 5 = none ∧
    (NewScheduler.Stop.ScheduleJob (demoSpec 5)).1 = some 0 ∧
    (NewScheduler.Stop.ScheduleJob (demoSpec 5)).2.resJobs 5 = some (some 0) ∧
    (NewScheduler.Stop.ScheduleJob (demoSpec 5)).2.queue.queue = [] ∧
    (NewScheduler.Stop.ScheduleJob (demoSpec 5)).2.queue.queue.count (some 0) ≠ 1 := by
  decide

theorem PickJob_head (c : Scheduler) (w : WorkerID) (head : PJPtr) (rest : List PJPtr)
    (pj : PendingJob) (hq : c.queue.queue = head :: rest) (hd : c.deref head = some pj) :
    c.PickJob false w =
      .ret (head, { c with queue := { queue := rest, closed := c.queue.closed },
                           Artifacts := c.Artifacts.set pj.Job.Job.ID w }) := by
  simp [Scheduler.PickJob, Take_cons c.queue head rest hq, hd]

theorem PickJob_ret_index (c : Scheduler) (w : WorkerID) (ctxDone : Bool) (p : PJPtr)
    (c1 : Scheduler) (h : c.PickJob ctxDone w = .ret (p, c1)) :
    (p = none → c1.Artifacts = c.Artifacts) ∧
    (p ≠ none → ∃ pj, c.deref p = some pj ∧
      c1.Artifacts = c.Artifacts.set pj.Job.Job.ID w) := by
  unfold Scheduler.PickJob at h
  split at h
  · split at h
    · cases h
      exact ⟨fun _ => rfl, fun hp => absurd rfl hp⟩
    · cases h
  · cases h
  · split at h
    · cases h
      exact ⟨fun _ => rfl, fun hp => absurd rfl hp⟩
    · split at h
      · cases h
      · rename_i pj hd
        cases h
        refine ⟨?_, fun _ => ⟨pj, hd, rfl⟩⟩
        intro hp
        rw [hp] at hd
        simp [Scheduler.deref] at hd

/-- C7: `PickJob` writes the artifact index exactly when it returns a job.  With a pending
job at the head of the queue and the context not cancelled it returns that job, removes
it from the queue, and afterwards `LocateArtifact` of the job's ID gives the worker and
`true` while every other ID is located as before.  With the queue empty and the context
cancelled it returns nil and the index is unchanged.  And whenever it returns, the index
is unchanged for nil and has exactly the entry of the returned job rewritten otherwise. -/
theorem PickJob_index (c : Scheduler) (w : WorkerID) :
    (∀ head rest pj, c.queue.queue = head :: rest → c.deref head = some pj →
      ∃ c1, c.PickJob false w = .ret (head, c1) ∧
        c1.LocateArtifact pj.Job.Job.ID = (w, true) ∧
        (∀ id, id ≠ pj.Job.Job.ID → c1.LocateArtifact id = c.LocateArtifact id) ∧
        c1.queue.queue = rest) ∧
    (c.queue.queue = [] →
      ∃ c1, c.PickJob true w = .ret (none, c1) ∧ c1.Artifacts = c.Artifacts) ∧
    (∀ ctxDone p c1, c.PickJob ctxDone w = .ret (p, c1) →
      (p = none → c1.Artifacts = c.Artifacts) ∧
      (p ≠ none → ∃ pj, c.deref p = some pj ∧
        c1.Artifacts = c.Artifacts.set pj.Job.Job.ID w)) := by
  refine ⟨?_, ?_, fun ctxDone p c1 h => PickJob_ret_index c w ctxDone p c1 h⟩
  · intro head rest pj hq hd
    refine ⟨_, PickJob_head c w head rest pj hq hd, ?_, ?_, rfl⟩
    · simp [Scheduler.LocateArtifact, GoMap.set]
    · intro id hid
      simp [Scheduler.LocateArtifact, GoMap.set, hid]
  · intro hq
    cases hc : c.queue.closed with
    | false =>
      exact ⟨{ c with helping := c.helping + 1 },
        by simp [Scheduler.PickJob, Take_nil_open c.queue hc hq], rfl⟩
    | true =>
      exact ⟨c, by simp [Scheduler.PickJob, Take_nil_closed c.queue hc hq], rfl⟩

theorem PickJob_index_witness :
    (∃ c1, demoSched.PickJob false "w1" = .ret (some 0, c1) ∧
        c1.LocateArtifact 5 = ("w1", true) ∧
        (∀ id, id ≠ 5 → c1.LocateArtifact id = demoSched.LocateArtifact id) ∧
        c1.queue.queue = []) ∧
    (∃ c1, NewScheduler.PickJob true "w1" = .ret (none, c1) ∧
        c1.Artifacts = NewScheduler.Artifacts) :=
  ⟨(PickJob_index demoSched "w1").1 (some 0) []
      { Job := demoSpec 5, Finished := false, Result := JobResult.zero } rfl rfl,
    (PickJob_index NewScheduler "w1").2.1 rfl⟩

/-! ## Coordinator: the started frame, the job specs and the frame order -/

theorem mem_probeFiles (fc : FileCache) (id : ID) :
    ∀ entries : List (ID × String),
      id ∈ probeFiles fc entries ↔
        id ∈ entries.map Prod.fst ∧ ∃ e, fc.Get id = .error e := by
  intro entries
  induction entries with
  | nil => simp [probeFiles]
  | cons entry rest ih =>
    obtain ⟨k, path⟩ := entry
    cases hg : fc.Get k with
    | error e =>
      simp only [probeFiles, hg, List.mem_cons, List.map_cons, ih]
      constructor
      · rintro (h | h)
        · subst h; exact ⟨Or.inl rfl, e, hg⟩
        · exact ⟨Or.inr h.1, h.2⟩
      · rintro ⟨h | h, he⟩
        · exact Or.inl h
        · exact Or.inr ⟨h, he⟩
    | ok v =>
      simp only [probeFiles, hg, List.mem_cons, List.map_cons, ih]
      constructor
      · rintro h
        exact ⟨Or.inr h.1, h.2⟩
      · rintro ⟨h | h, he⟩
        · subst h
          obtain ⟨e, he⟩ := he
          rw [hg] at he
          cases he
        · exact ⟨h, he⟩

theorem probeFiles_sublist (fc : FileCache) :
    ∀ entries : List (ID × String), (probeFiles fc entries).Sublist (entries.map Prod.fst) := by
  intro entries
  induction entries with
  | nil => simp [probeFiles]
  | cons entry rest ih =>
    obtain ⟨k, path⟩ := entry
    cases hg : fc.Get k with
    | error e => simpa [probeFiles, hg] using ih
    | ok v =>
      simp only [probeFiles, hg, List.map_cons]
      exact List.Sublist.cons _ ih

/-- C2: the `MissingFiles` list of the `BuildStarted` frame of `StartBuild` has no duplicates,
and an ID is in it if and only if it is a key of the graph's `SourceFiles` and the file
cache's `Get` on it returns an error. -/
theorem MissingFiles_correct (c : Coordinator) (newID : ID) (request : BuildRequest) :
    (c.startedFrame newID request).MissingFiles.Nodup ∧
    ∀ id, id ∈ (c.startedFrame newID request).MissingFiles ↔
      id ∈ request.Graph.SourceFiles.keys ∧ ∃ e, c.fileCache.Get id = .error e :=
  ⟨List.Nodup.sublist (probeFiles_sublist c.fileCache _) request.Graph.SourceFiles.nodup,
    fun id => mem_probeFiles c.fileCache id request.Graph.SourceFiles.entries⟩

/-- C10 fails on the code: a heartbeat with a free slot whose `PickJob` returns nil (the
context is cancelled while the queue is empty) gets a nil response, not a response with an
empty `JobsToRun`; the sibling branch for a heartbeat without free slots does build one. -/
theorem Heartbeat_nil_response :
    ((NewCoordinator demoCache).Heartbeat true demoAsk).value?.map (fun r => r.1.1.isSome)
      = some false ∧
    ((NewCoordinator demoCache).Heartbeat true { demoAsk with FreeSlots := 0 }).value?.map
      (fun r => r.1.1.isSome) = some true := by
  decide

theorem writeLine_ok (w : Stream) (f : Frame) (h : w.io w.calls = .ok) :
    w.writeLine f = (none, { w with frames := w.frames ++ [f], calls := w.calls + 1 }) := by
  simp [Stream.writeLine, h]

theorem waitFinished_deref (wp : PJPtr × Coordinator) (h : waitFinished wp = true) :
    ∃ pj, wp.2.sched.deref wp.1 = some pj ∧ pj.Finished = true := by
  unfold waitFinished at h
  cases hd : wp.2.sched.deref wp.1 with
  | none => simp [hd] at h
  | some pj => exact ⟨pj, rfl, by simpa [hd] using h⟩

theorem buildLoop_complete (world : World) (graph : Graph)
    (hctx : ∀ k, (world.ctx k).done = false) :
    ∀ (jobs : List Job) (k : Nat) (c : Coordinator) (w : Stream),
      (∀ n, w.io n = .ok) →
      (waitPoints world graph k jobs c).all waitFinished = true →
      ∃ (c1 : Coordinator) (w1 : Stream) (results : List JobResult),
        buildLoop world graph k jobs c w = .ret (none, c1, w1) ∧
        results.length = jobs.length ∧
        (waitPoints world graph k jobs c).map waitResult = results.map some ∧
        w1.frames = w.frames ++ results.map (fun r => Frame.updated (jobFrame r)) ∧
        w1.io = w.io ∧ w1.isStarted = w.isStarted := by
  intro jobs
  induction jobs with
  | nil =>
    intro k c w _ _
    exact ⟨c, w, [], by simp [buildLoop], rfl, by simp [waitPoints], by simp, rfl, rfl⟩
  | cons job rest ih =>
    intro k c w hio hall
    simp only [waitPoints, List.all_cons, Bool.and_eq_true] at hall
    obtain ⟨pj, hd, hfin⟩ := waitFinished_deref _ hall.1
    have hw := writeLine_ok w (.updated (jobFrame pj.Result)) (hio w.calls)
    obtain ⟨c1, w1, results, hloop, hlen, hres, hframes, hio1, hst⟩ :=
      ih (k + 1) (waitPoint world graph k job c).2 (w.Updated (jobFrame pj.Result)).2
        (by intro n; simp [Stream.Updated, hw, hio n]) hall.2
    refine ⟨c1, w1, pj.Result :: results, ?_, by simp [hlen], ?_, ?_, ?_, ?_⟩
    · simp only [buildLoop, hd, hctx k, hfin]
      simpa using hloop
    · simp [waitPoints, hres, waitResult, hd]
    · rw [hframes]
      simp [Stream.Updated, hw]
    · rw [hio1]
      simp [Stream.Updated, hw]
    · rw [hst]
      simp [Stream.Updated, hw]

theorem ScheduleJobAmid_registers (c : Scheduler) (amidPut amidRegister : Scheduler → Scheduler)
    (job : JobSpec) :
    (c.ScheduleJobAmid amidPut amidRegister job).2.resJobs job.Job.ID =
      some (c.ScheduleJobAmid amidPut amidRegister job).1 := by
  cases h : c.resJobs job.Job.ID with
  | some p => rw [ScheduleJobAmid_known c amidPut amidRegister job p h]; exact h
  | none => simp [Scheduler.ScheduleJobAmid, h, Scheduler.register, GoMap.set]

theorem waitPoints_registered (world : World) (graph : Graph) :
    ∀ (jobs : List Job) (k : Nat) (c : Coordinator),
      List.Forall₂
        (fun job wp => ∃ (i : Nat) (cs : Coordinator),
          wp.2 = world.atJob i cs ∧ cs.sched.resJobs job.ID = some wp.1)
        jobs (waitPoints world graph k jobs c) := by
  intro jobs
  induction jobs with
  | nil => intro k c; simp [waitPoints]
  | cons job rest ih =>
    intro k c
    simp only [waitPoints]
    refine List.Forall₂.cons ⟨k, _, rfl, ?_⟩ (ih _ _)
    exact ScheduleJobAmid_registers c.sched (world.amidPut k) (world.amidRegister k)
      (makeJobSpec graph c.sched job)

/-- C1: for a build whose writes all succeed, whose context is never cancelled, whose upload
gate is released and whose jobs all finish when they are waited for, the `/build` handler
returns and has appended to the response, in this order: one `BuildStarted` frame, then
one `StatusUpdate` frame per job of the list returned by `TopSort`, the `k`-th with
`JobFinished` holding the result slot, as it is when the wait for that job ends, of the
pending job that `ScheduleJob` returned for the `k`-th job and that was registered under
that job's ID then, then one `StatusUpdate` that sets only `BuildFailed`, with `Error`
"EOF"; so the frame of a job comes after the frames of all jobs that precede it in the
sorted list. -/
theorem build_stream_order (c : Coordinator) (world : World) (TopSort : List Job → List Job)
    (newID : ID) (request : BuildRequest) (w : Stream)
    (hio : ∀ n, w.io n = .ok)
    (hctx : ∀ k, (world.ctx k).done = false)
    (hgate : (c.pastGate world).waitSignal = 0)
    (hdone : (waitPoints world request.Graph 0 (TopSort request.Graph.Jobs)
      (c.pastGate world)).all waitFinished = true) :
    ∃ (c1 : Coordinator) (w1 : Stream) (results : List JobResult),
      ServeHTTP c world TopSort newID (some request) w = .ret (c1, w1) ∧
      results.length = (TopSort request.Graph.Jobs).length ∧
      (waitPoints world request.Graph 0 (TopSort request.Graph.Jobs)
        (c.pastGate world)).map (fun wp => (wp.2.sched.deref wp.1).map PendingJob.Result)
          = results.map some ∧
      List.Forall₂
        (fun job wp => ∃ (i : Nat) (cs : Coordinator),
          wp.2 = world.atJob i cs ∧ cs.sched.resJobs job.ID = some wp.1)
        (TopSort request.Graph.Jobs)
        (waitPoints world request.Graph 0 (TopSort request.Graph.Jobs) (c.pastGate world)) ∧
      w1.frames = w.frames
        ++ [Frame.started
              { ID := newID, MissingFiles := (c.startedFrame newID request).MissingFiles }]
        ++ results.map (fun r => Frame.updated
              { JobFinished := some r, BuildFailed := none, BuildFinished := some {} })
        ++ [Frame.updated
              { JobFinished := none, BuildFailed := some { Error := "EOF" },
                BuildFinished := none }] := by
  have hs : w.Started (c.startedFrame newID request) =
      (none, { w with isStarted := true,
                      frames := w.frames ++ [Frame.started (c.startedFrame newID request)],
                      calls := w.calls + 1 }) := by
    have h := writeLine_ok { w with isStarted := true }
      (.started (c.startedFrame newID request)) (hio w.calls)
    simpa [Stream.Started] using h
  obtain ⟨c1, w1, results, hloop, hlen, hres, hframes, hio1, _⟩ :=
    buildLoop_complete world request.Graph hctx (TopSort request.Graph.Jobs) 0
      (c.pastGate world) (w.Started (c.startedFrame newID request)).2
      (by intro n; simp [hs, hio n]) hdone
  simp only [hs] at hloop hframes hio1
  have hw := writeLine_ok w1 (.updated eofFrame) (by rw [hio1]; exact hio _)
  refine ⟨c1, (w1.Updated eofFrame).2, results, ?_, hlen, hres,
    waitPoints_registered world request.Graph _ 0 _, ?_⟩
  · simp [ServeHTTP, Coordinator.StartBuild, hgate, hloop, hs, Exec.bind]
  · have hlast : (w1.Updated eofFrame).2.frames = w1.frames ++ [Frame.updated eofFrame] := by
      simp [Stream.Updated, hw]
    rw [hlast, hframes]
    simp [jobFrame, eofFrame, Coordinator.startedFrame]

theorem build_stream_order_witness :
    ∃ (c1 : Coordinator) (w1 : Stream),
      ServeHTTP (NewCoordinator demoCache) demoWorld id 42 (some { Graph := demoGraph })
        demoStream = .ret (c1, w1) ∧
      w1.frames =
        [Frame.started { ID := 42, MissingFiles := [7] },
         Frame.updated
           { JobFinished := some { ID := 1, ExitCode := 0, Stdout := [], Stderr := [],
                                   Error := "" },
             BuildFailed := none, BuildFinished := some {} },
         Frame.updated
           { JobFinished := some { ID := 2, ExitCode := 0, Stdout := [], Stderr := [],
                                   Error := "" },
             BuildFailed := none, BuildFinished := some {} },
         Frame.updated
           { JobFinished := none, BuildFailed := some { Error := "EOF" },
             BuildFinished := none }] := by
  obtain ⟨c1, w1, results, hret, _, hres, _, hframes⟩ :=
    build_stream_order (NewCoordinator demoCache) demoWorld id 42 { Graph := demoGraph }
      demoStream (fun _ => rfl) (fun _ => rfl) (by decide) (by decide)
  have hL : (waitPoints demoWorld demoGraph 0 demoGraph.Jobs
      ((NewCoordinator demoCache).pastGate demoWorld)).map
        (fun wp => (wp.2.sched.deref wp.1).map PendingJob.Result) =
      List.map some
        [{ ID := 1, ExitCode := 0, Stdout := [], Stderr := [], Error := "" },
         { ID := 2, ExitCode := 0, Stdout := [], Stderr := [], Error := "" }] := by
    decide
  have hresults : results =
      [{ ID := 1, ExitCode := 0, Stdout := [], Stderr := [], Error := "" },
       { ID := 2, ExitCode := 0, Stdout := [], Stderr := [], Error := "" }] := by
    apply (List.map_injective_iff.2 (Option.some_injective JobResult))
    rw [← hres]
    exact hL
  refine ⟨c1, w1, hret, ?_⟩
  rw [hframes, hresults]
  decide

/-! ## Frame shapes, the status reader and the upload gate -/

theorem updatesOf_append (l1 l2 : List Frame) :
    updatesOf (l1 ++ l2) = updatesOf l1 ++ updatesOf l2 := by
  induction l1 with
  | nil => simp [updatesOf]
  | cons f rest ih =>
    cases f <;> simp [updatesOf, ih]

theorem writeLine_frames (w : Stream) (f : Frame) :
    (w.writeLine f).2.frames = w.frames ∨ (w.writeLine f).2.frames = w.frames ++ [f] := by
  unfold Stream.writeLine
  cases w.io w.calls <;> simp

theorem Updated_updates (w : Stream) (u : StatusUpdate) :
    updatesOf (w.Updated u).2.frames = updatesOf w.frames ∨
      updatesOf (w.Updated u).2.frames = updatesOf w.frames ++ [u] := by
  rcases writeLine_frames w (.updated u) with h | h
  · left; simp [Stream.Updated, h]
  · right; simp [Stream.Updated, h, updatesOf_append, updatesOf]

theorem Started_updates (w : Stream) (rsp : BuildStarted) :
    updatesOf (w.Started rsp).2.frames = updatesOf w.frames := by
  rcases writeLine_frames { w with isStarted := true } (.started rsp) with h | h
  · simp [Stream.Started, h]
  · simp [Stream.Started, h, updatesOf_append, updatesOf]

theorem buildLoop_frames (world : World) (graph : Graph) :
    ∀ (jobs : List Job) (k : Nat) (c : Coordinator) (w : Stream)
      (r : Option String × Coordinator × Stream),
      buildLoop world graph k jobs c w = .ret r →
      ∃ added : List JobResult,
        updatesOf r.2.2.frames = updatesOf w.frames ++ added.map jobFrame := by
  intro jobs
  induction jobs with
  | nil =>
    intro k c w r h
    simp only [buildLoop] at h
    cases h
    exact ⟨[], by simp⟩
  | cons job rest ih =>
    intro k c w r h
    simp only [buildLoop] at h
    split at h
    · cases h
    · rename_i pj hd
      split at h
      · cases h
        exact ⟨[], by simp⟩
      · split at h
        · obtain ⟨added, hadd⟩ := ih _ _ _ r h
          rcases Updated_updates w (jobFrame pj.Result) with hw | hw
          · exact ⟨added, by rw [hadd, hw]⟩
          · exact ⟨pj.Result :: added, by rw [hadd, hw]; simp⟩
        · cases h

theorem StartBuild_frames (c : Coordinator) (world : World) (TopSort : List Job → List Job)
    (newID : ID) (request : BuildRequest) (w : Stream)
    (r : Option String × Coordinator × Stream)
    (h : c.StartBuild world TopSort newID request w = .ret r) :
    ∃ added : List JobResult,
      updatesOf r.2.2.frames = updatesOf w.frames ++ added.map jobFrame := by
  unfold Coordinator.StartBuild at h
  simp only at h
  split at h
  · cases h
  · cases hl : buildLoop world request.Graph 0 (TopSort request.Graph.Jobs) (c.pastGate world)
        (w.Started (c.startedFrame newID request)).2 with
    | ret x =>
      rw [hl] at h
      obtain ⟨added, hadd⟩ := buildLoop_frames world request.Graph _ _ _ _ x hl
      rw [Started_updates] at hadd
      simp only [Exec.bind] at h
      split at h <;> (cases h; exact ⟨added, hadd⟩)
    | panic => rw [hl] at h; simp [Exec.bind] at h
    | blocked => rw [hl] at h; simp [Exec.bind] at h

/-- C11 (as the code has it): when the `/build` handler returns, every `StatusUpdate` frame
it has written either sets `JobFinished` together with `BuildFinished` and no `BuildFailed`,
or sets `BuildFailed` alone; the frames of the first kind are the frames of the completed
jobs, each carrying the job's result, and they come before a frame of the second kind,
of which there is at most one. -/
theorem status_update_shapes (c : Coordinator) (world : World)
    (TopSort : List Job → List Job) (newID : ID) (body : Option BuildRequest) (w : Stream)
    (c1 : Coordinator) (w1 : Stream)
    (h : ServeHTTP c world TopSort newID body w = .ret (c1, w1)) :
    (∀ result, (jobFrame result).JobFinished = some result ∧
      (jobFrame result).BuildFailed = none ∧ (jobFrame result).BuildFinished = some {}) ∧
    ∃ (results : List JobResult) (last : List StatusUpdate),
      updatesOf w1.frames = updatesOf w.frames ++ results.map jobFrame ++ last ∧
      last.length ≤ 1 ∧
      ∀ u ∈ last, u.JobFinished = none ∧ u.BuildFailed.isSome = true ∧
        u.BuildFinished = none := by
  refine ⟨fun result => ⟨rfl, rfl, rfl⟩, ?_⟩
  unfold ServeHTTP at h
  split at h
  · cases h
    exact ⟨[], [], by simp, by simp, by simp⟩
  · rename_i buildRequest
    cases hs : c.StartBuild world TopSort newID buildRequest w with
    | ret x =>
      rw [hs] at h
      obtain ⟨added, hadd⟩ := StartBuild_frames c world TopSort newID buildRequest w x hs
      simp only [Exec.bind] at h
      split at h
      · rename_i e he
        split at h
        · cases h
          rcases Updated_updates x.2.2
            { JobFinished := none, BuildFailed := some { Error := e }, BuildFinished := none }
            with hu | hu
          · exact ⟨added, [], by rw [hu, hadd]; simp, by simp, by simp⟩
          · exact ⟨added, [_], by rw [hu, hadd], by simp, by simp⟩
        · cases h
          refine ⟨added, [], ?_, by simp, by simp⟩
          rcases writeLine_frames x.2.2 (.text e) with hu | hu
          · rw [hu, hadd]; simp
          · rw [hu, updatesOf_append, hadd]; simp [updatesOf]
      · cases h
        rcases Updated_updates x.2.2 eofFrame with hu | hu
        · exact ⟨added, [], by rw [hu, hadd]; simp, by simp, by simp⟩
        · exact ⟨added, [eofFrame], by rw [hu, hadd], by simp, by simp [eofFrame]⟩
    | panic => rw [hs] at h; simp [Exec.bind] at h
    | blocked => rw [hs] at h; simp [Exec.bind] at h

theorem demo_build_returns :
    (ServeHTTP (NewCoordinator demoCache) demoWorld id 42 (some { Graph := demoGraph })
      demoStream).returns = true := by
  decide

theorem status_update_shapes_witness :
    ∃ (c1 : Coordinator) (w1 : Stream),
      ServeHTTP (NewCoordinator demoCache) demoWorld id 42 (some { Graph := demoGraph })
        demoStream = .ret (c1, w1) ∧
      ∃ (results : List JobResult) (last : List StatusUpdate),
        updatesOf w1.frames = updatesOf demoStream.frames ++ results.map jobFrame ++ last ∧
        last.length ≤ 1 ∧
        ∀ u ∈ last, u.JobFinished = none ∧ u.BuildFailed.isSome = true ∧
          u.BuildFinished = none := by
  cases h : ServeHTTP (NewCoordinator demoCache) demoWorld id 42 (some { Graph := demoGraph })
      demoStream with
  | ret x =>
    exact ⟨x.1, x.2, rfl,
      (status_update_shapes (NewCoordinator demoCache) demoWorld id 42
        (some { Graph := demoGraph }) demoStream x.1 x.2 h).2⟩
  | panic =>
    have hr := demo_build_returns
    rw [h] at hr
    cases hr
  | blocked =>
    have hr := demo_build_returns
    rw [h] at hr
    cases hr

/-- C11 (as stated) fails: in the stream of a build of two jobs the two frames written for
the completed jobs each set two parts, `JobFinished` and `BuildFinished`; only the
terminal frame sets one. -/
theorem job_frame_sets_two_parts :
    (ServeHTTP (NewCoordinator demoCache) demoWorld id 42 (some { Graph := demoGraph })
        demoStream).value?.map (fun r => (updatesOf r.2.frames).map StatusUpdate.parts)
      = some [2, 2, 1] ∧
    (jobFrame demoResult1).parts ≠ 1 := by
  decide

theorem Next_finished (reader : BuildStatusReader) (h : reader.isFinish = true) :
    reader.Next = ((none, some ioEOF), reader) := by
  simp [BuildStatusReader.Next, h]

theorem nextN_finished (n : Nat) :
    ∀ reader : BuildStatusReader, reader.isFinish = true →
      reader.nextN n = (List.replicate n (none, some ioEOF), reader) := by
  induction n with
  | zero => intro reader _; rfl
  | succ n ih =>
    intro reader h
    simp only [BuildStatusReader.nextN, Next_finished reader h, ih reader h,
      List.replicate_succ]

/-- C12: on a reader that has not finished and whose next line decodes to a `StatusUpdate`, a
`BuildFailed.Error` equal to "EOF" makes `Next` return nil and `io.EOF` and then any number
of further calls return nil and `io.EOF` without reading from the body; every other
update, one with `BuildFailed` of another error text included, is returned as decoded
with a nil error, and the reader goes on with the rest of the body. -/
theorem Next_sentinel (body : List WireLine) (bodyErr : String) (update : StatusUpdate) :
    (update.BuildFailed = some { Error := "EOF" } →
      (BuildStatusReader.mk (.frame update :: body) bodyErr false).Next =
          ((none, some ioEOF), { body := body, bodyErr := bodyErr, isFinish := true }) ∧
        ∀ n, (BuildStatusReader.mk body bodyErr true).nextN n =
          (List.replicate n (none, some ioEOF),
            { body := body, bodyErr := bodyErr, isFinish := true })) ∧
    (update.BuildFailed ≠ some { Error := "EOF" } →
      (BuildStatusReader.mk (.frame update :: body) bodyErr false).Next =
        ((some update, none), { body := body, bodyErr := bodyErr, isFinish := false })) := by
  constructor
  · intro h
    refine ⟨?_, fun n => nextN_finished n _ rfl⟩
    simp [BuildStatusReader.Next, h, ioEOF]
  · intro h
    cases hb : update.BuildFailed with
    | none => simp [BuildStatusReader.Next, hb]
    | some failed =>
      have hne : failed.Error ≠ "EOF" := by
        intro he
        apply h
        rw [hb]
        cases failed
        simp at he
        simp [he]
      simp [BuildStatusReader.Next, hb, ioEOF, hne]

theorem Next_sentinel_witness :
    ((BuildStatusReader.mk [.frame eofFrame, .frame (jobFrame demoResult1)] "EOF" false).Next =
        ((none, some ioEOF),
          { body := [.frame (jobFrame demoResult1)], bodyErr := "EOF", isFinish := true }) ∧
      ∀ n, (BuildStatusReader.mk [.frame (jobFrame demoResult1)] "EOF" true).nextN n =
        (List.replicate n (none, some ioEOF),
          { body := [.frame (jobFrame demoResult1)], bodyErr := "EOF", isFinish := true })) ∧
    (BuildStatusReader.mk
        [.frame { JobFinished := none, BuildFailed := some { Error := "context canceled" },
                  BuildFinished := none }] "EOF" false).Next =
      ((some { JobFinished := none, BuildFailed := some { Error := "context canceled" },
               BuildFinished := none }, none),
        { body := [], bodyErr := "EOF", isFinish := false }) :=
  ⟨(Next_sentinel [.frame (jobFrame demoResult1)] "EOF" eofFrame).1 rfl,
    (Next_sentinel [] "EOF"
      { JobFinished := none, BuildFailed := some { Error := "context canceled" },
        BuildFinished := none }).2 (by decide)⟩

theorem SignalBuild_positive (c : Coordinator) (buildID : ID) (signal : SignalRequest)
    (hpos : 0 < c.waitSignal) :
    c.SignalBuild buildID signal =
      .ret (({}, none), { c with waitSignal := c.waitSignal - 1 }) := by
  have hn : ¬ c.waitSignal - 1 < 0 := by omega
  simp [Coordinator.SignalBuild, hn]

theorem SignalBuild_ret (c : Coordinator) (buildID : ID) (signal : SignalRequest)
    (r : (SignalResponse × Option String) × Coordinator)
    (h : c.SignalBuild buildID signal = .ret r) :
    0 < c.waitSignal ∧ r = (({}, none), { c with waitSignal := c.waitSignal - 1 }) := by
  unfold Coordinator.SignalBuild at h
  split at h
  · cases h
  · rename_i hn
    cases h
    exact ⟨by omega, rfl⟩

/-- What `Gate.settle` does: nobody goes on, or the counter is zero and everybody does. -/
theorem Gate_settle_cases (g : Gate) :
    (g.settle.coord = g.coord) ∧
    (g.settle.released ++ g.settle.waiting = g.released ++ g.waiting) ∧
    (g.settle.coord.waitSignal = 0 → g.settle.waiting = []) ∧
    ((g.coord.waitSignal ≠ 0 ∧ g.settle = g) ∨
      (g.coord.waitSignal = 0 ∧ g.settle.waiting = [] ∧
        g.settle.released = g.released ++ g.waiting)) := by
  by_cases hz : g.coord.waitSignal = 0
  · simp [Gate.settle, hz]
  · simp [Gate.settle, hz]

/-- What one event at the gate keeps and does. -/
theorem Gate_step_inv (g g1 : Gate) (ev : GateEvent) (hstep : g.step ev = .ret g1) :
    g1.coord.waitSignal + signalsIn [ev] = g.coord.waitSignal + addsIn [ev] ∧
    g1.coord.sched = g.coord.sched ∧ g1.coord.fileCache = g.coord.fileCache ∧
    g1.released ++ g1.waiting = g.released ++ g.waiting ++ waitedIn [ev] ∧
    (g1.coord.waitSignal = 0 → g1.waiting = []) ∧
    ((g1.coord.waitSignal ≠ 0 ∧ g1.released = g.released) ∨
      (g1.coord.waitSignal = 0 ∧ g1.waiting = [] ∧
        g1.released = g.released ++ g.waiting ++ waitedIn [ev])) := by
  cases ev with
  | add buildID =>
    simp only [Gate.step, Exec.ret.injEq] at hstep
    subst hstep
    obtain ⟨hc, hl, hi, hcase⟩ := Gate_settle_cases { g with coord := g.coord.gateAdd }
    refine ⟨?_, ?_, ?_, ?_, hi, ?_⟩
    · rw [hc]; simp [Coordinator.gateAdd, signalsIn, addsIn]
    · rw [hc]; rfl
    · rw [hc]; rfl
    · rw [hl]; simp [waitedIn]
    · rcases hcase with ⟨hne, he⟩ | ⟨hz, hw, hr⟩
      · left; rw [he]; exact ⟨hne, rfl⟩
      · right; rw [hc]; exact ⟨hz, hw, by rw [hr]; simp [waitedIn]⟩
  | wait buildID =>
    simp only [Gate.step, Exec.ret.injEq] at hstep
    subst hstep
    obtain ⟨hc, hl, hi, hcase⟩ := Gate_settle_cases { g with waiting := g.waiting ++ [buildID] }
    refine ⟨?_, ?_, ?_, ?_, hi, ?_⟩
    · rw [hc]; simp [signalsIn, addsIn]
    · rw [hc]
    · rw [hc]
    · rw [hl]; simp [waitedIn]
    · rcases hcase with ⟨hne, he⟩ | ⟨hz, hw, hr⟩
      · left; rw [he]; exact ⟨hne, rfl⟩
      · right; rw [hc]; exact ⟨hz, hw, by rw [hr]; simp [waitedIn]⟩
  | signal buildID =>
    simp only [Gate.step] at hstep
    cases hs : g.coord.SignalBuild buildID { UploadDone := some () } with
    | ret r =>
      rw [hs] at hstep
      obtain ⟨hpos, rfl⟩ := SignalBuild_ret g.coord buildID _ r hs
      simp only [Exec.bind, Exec.ret.injEq] at hstep
      subst hstep
      obtain ⟨hc, hl, hi, hcase⟩ :=
        Gate_settle_cases { g with coord := { g.coord with waitSignal := g.coord.waitSignal - 1 } }
      refine ⟨?_, ?_, ?_, ?_, hi, ?_⟩
      · rw [hc]; simp [signalsIn, addsIn]
      · rw [hc]
      · rw [hc]
      · rw [hl]; simp [waitedIn]
      · rcases hcase with ⟨hne, he⟩ | ⟨hz, hw, hr⟩
        · left; rw [he]; exact ⟨hne, rfl⟩
        · right; rw [hc]; exact ⟨hz, hw, by rw [hr]; simp [waitedIn]⟩
    | panic => rw [hs] at hstep; simp [Exec.bind] at hstep
    | blocked => rw [hs] at hstep; simp [Exec.bind] at hstep

theorem Gate_run_inv (evs : List GateEvent) :
    ∀ (g g1 : Gate), g.run evs = .ret g1 →
      (g.coord.waitSignal = 0 → g.waiting = []) →
      g1.coord.waitSignal + signalsIn evs = g.coord.waitSignal + addsIn evs ∧
      g1.coord.sched = g.coord.sched ∧ g1.coord.fileCache = g.coord.fileCache ∧
      g1.released ++ g1.waiting = g.released ++ g.waiting ++ waitedIn evs ∧
      (g1.coord.waitSignal = 0 → g1.waiting = []) := by
  induction evs with
  | nil =>
    intro g g1 h hidle
    simp only [Gate.run, Exec.ret.injEq] at h
    subst h
    refine ⟨?_, rfl, rfl, ?_, hidle⟩ <;> simp [addsIn, signalsIn, waitedIn]
  | cons ev evs ih =>
    intro g g1 h hidle
    simp only [Gate.run] at h
    cases hs : g.step ev with
    | ret g2 =>
      rw [hs] at h
      simp only [Exec.bind] at h
      obtain ⟨acount, asched, acache, alist, aidle, _⟩ := Gate_step_inv g g2 ev hs
      obtain ⟨bcount, bsched, bcache, blist, bidle⟩ := ih g2 g1 h aidle
      have hsig : signalsIn (ev :: evs) = signalsIn [ev] + signalsIn evs := by
        cases ev <;> simp [signalsIn]; omega
      have hadd : addsIn (ev :: evs) = addsIn [ev] + addsIn evs := by
        cases ev <;> simp [addsIn]; omega
      have hsta : waitedIn (ev :: evs) = waitedIn [ev] ++ waitedIn evs := by
        cases ev <;> simp [waitedIn]
      refine ⟨?_, bsched.trans asched, bcache.trans acache, ?_, bidle⟩
      · rw [hsig, hadd]
        push_cast
        omega
      · rw [blist, alist, hsta]
        simp
    | panic => rw [hs] at h; simp [Exec.bind] at h
    | blocked => rw [hs] at h; simp [Exec.bind] at h

theorem Gate_step_resignal (f : ID → ID) (g : Gate) (ev : GateEvent) :
    g.step (ev.resignal f) = g.step ev := by
  cases ev <;> rfl

theorem Gate_run_resignal (f : ID → ID) (evs : List GateEvent) :
    ∀ g : Gate, g.run (evs.map (GateEvent.resignal f)) = g.run evs := by
  induction evs with
  | nil => intro g; rfl
  | cons ev evs ih =>
    intro g
    simp only [List.map_cons, Gate.run, Gate_step_resignal]
    cases g.step ev with
    | ret g2 => simp only [Exec.bind]; exact ih g2
    | panic => rfl
    | blocked => rfl

/-- C13 (as the code has it): the upload gate is one counter for all builds.  Take a gate
at which nobody waits while the counter is zero, and any events at it that all return
(builds calling `Add(1)`, builds calling `Wait`, `SignalBuild`s).  Afterwards the counter
has grown by the number of `Add(1)`s and shrunk by the number of `SignalBuild`s, nothing
else of the coordinator has changed, and the build IDs of the `SignalBuild`s make no
difference.  Every build that called `Wait` is parked or has gone on, in order of arrival;
when the counter is zero, nobody is parked; from a counter of zero, as many signals as
additions leave the counter at zero, so all the builds have gone on.  One event lets
nobody go on unless it leaves the counter at zero, and then it lets everybody go on.  A
`SignalBuild` on a positive counter returns the empty response and a nil error and takes
one off the counter.  A `StartBuild` adds one and then waits: when events at the gate
follow its `Add(1)`, it and the gate agree: on a counter that is then not zero it is
parked, and on a counter of zero it goes on with its job loop. -/
theorem upload_gate_shared_counter (g g1 : Gate) (evs : List GateEvent)
    (hidle : g.coord.waitSignal = 0 → g.waiting = [])
    (hrun : g.run evs = .ret g1) :
    g1.coord.waitSignal + signalsIn evs = g.coord.waitSignal + addsIn evs ∧
    g1.coord.sched = g.coord.sched ∧ g1.coord.fileCache = g.coord.fileCache ∧
    (∀ f : ID → ID, g.run (evs.map (GateEvent.resignal f)) = .ret g1) ∧
    g1.released ++ g1.waiting = g.released ++ g.waiting ++ waitedIn evs ∧
    (g1.coord.waitSignal = 0 →
      g1.waiting = [] ∧ g1.released = g.released ++ g.waiting ++ waitedIn evs) ∧
    (g.coord.waitSignal = 0 → signalsIn evs = addsIn evs →
      g1.coord.waitSignal = 0 ∧ g1.waiting = [] ∧ g1.released = g.released ++ waitedIn evs) ∧
    (∀ (h h1 : Gate) (ev : GateEvent), h.step ev = .ret h1 →
      (h1.coord.waitSignal ≠ 0 ∧ h1.released = h.released) ∨
        (h1.coord.waitSignal = 0 ∧ h1.waiting = [] ∧
          h1.released = h.released ++ h.waiting ++ waitedIn [ev])) ∧
    (∀ (c : Coordinator) buildID signal, 0 < c.waitSignal →
      c.SignalBuild buildID signal =
        .ret (({}, none), { c with waitSignal := c.waitSignal - 1 })) ∧
    (∀ (c : Coordinator), c.gateAdd.waitSignal = c.waitSignal + 1 ∧ c.gateAdd.sched = c.sched ∧
      c.gateAdd.fileCache = c.fileCache) ∧
    (∀ world TopSort newID request w, evs.head? = some (.add newID) →
      world.atGate g.coord.gateAdd = g1.coord →
      (g1.coord.waitSignal ≠ 0 →
        g.coord.StartBuild world TopSort newID request w = .blocked ∧
        g1.step (.wait newID) = .ret { g1 with waiting := g1.waiting ++ [newID] }) ∧
      (g1.coord.waitSignal = 0 →
        g.coord.StartBuild world TopSort newID request w =
          ((buildLoop world request.Graph 0 (TopSort request.Graph.Jobs) g1.coord
            (w.Started (g.coord.startedFrame newID request)).2).bind fun r =>
              match r.1 with
              | some e => .ret (some e, r.2)
              | none => .ret ((w.Started (g.coord.startedFrame newID request)).1, r.2)) ∧
        g1.step (.wait newID) = .ret { g1 with released := g1.released ++ [newID] })) := by
  obtain ⟨hcount, hsched, hcache, hlist, hidle1⟩ := Gate_run_inv evs g g1 hrun hidle
  refine ⟨hcount, hsched, hcache, ?_, hlist, ?_, ?_, ?_, ?_, ?_, ?_⟩
  · intro f
    rw [Gate_run_resignal, hrun]
  · intro hz
    have hw := hidle1 hz
    rw [hw, List.append_nil] at hlist
    exact ⟨hw, hlist⟩
  · intro hz hsame
    have hz1 : g1.coord.waitSignal = 0 := by omega
    have hw := hidle1 hz1
    rw [hw, hidle hz, List.append_nil, List.append_nil] at hlist
    exact ⟨hz1, hw, hlist⟩
  · intro h h1 ev hstep
    exact (Gate_step_inv h h1 ev hstep).2.2.2.2.2
  · intro c buildID signal hpos
    exact SignalBuild_positive c buildID signal hpos
  · intro c
    exact ⟨rfl, rfl, rfl⟩
  · intro world TopSort newID request w _ hworld
    constructor
    · intro hne
      constructor
      · simp [Coordinator.StartBuild, Coordinator.pastGate, hworld, hne]
      · simp [Gate.step, Gate.settle, hne]
    · intro hz
      constructor
      · simp [Coordinator.StartBuild, Coordinator.pastGate, hworld, hz]
      · simp [Gate.step, Gate.settle, hz, hidle1 hz]

theorem upload_gate_shared_counter_witness :
    demoGate.run demoGateEvents = .ret demoGateOpen ∧
    (demoGateOpen.coord.waitSignal = 0 ∧ demoGateOpen.waiting = [] ∧
      demoGateOpen.released = [7, 42]) ∧
    demoGate.run demoGateEarly = .ret demoGateShut ∧
    ((NewCoordinator demoCache).StartBuild demoWorldTwoBuilds id 42 { Graph := demoGraph }
        demoStream = .blocked ∧
      demoGateShut.step (.wait 42) = .ret { demoGateShut with waiting := [42] }) :=
  ⟨rfl,
    (upload_gate_shared_counter demoGate demoGateOpen demoGateEvents (fun _ => rfl)
      rfl).2.2.2.2.2.2.1 rfl rfl,
    rfl,
    ((upload_gate_shared_counter demoGate demoGateShut demoGateEarly (fun _ => rfl)
      rfl).2.2.2.2.2.2.2.2.2.2 demoWorldTwoBuilds id 42 { Graph := demoGraph } demoStream
      rfl rfl).1 (by decide)⟩

/-- C13 (as stated) fails: with a second build waiting at the gate, the `SignalBuild` for
the first build leaves the first build parked; a further `SignalBuild` for the first
build then brings the counter to zero, which releases the second build as well; and a
`SignalBuild` on a coordinator whose counter is zero fails at run time. -/
theorem signal_does_not_release_own_build :
    ((NewCoordinator demoCache).StartBuild demoWorldTwoBuilds id 42 { Graph := demoGraph }
      demoStream).isBlocked = true ∧
    ((NewCoordinator demoCache).pastGate demoWorldTwoBuilds).waitSignal = 1 ∧
    (afterCall ((NewCoordinator demoCache).pastGate demoWorldTwoBuilds)
      (((NewCoordinator demoCache).pastGate demoWorldTwoBuilds).SignalBuild 42
        { UploadDone := some () })).waitSignal = 0 ∧
    ((NewCoordinator demoCache).SignalBuild 42 { UploadDone := some () }).panics = true := by
  decide

/-! ## Worker results, uploads, source files of a job, and run-time failures -/

theorem runCmds_result (host : Host) (job : JobSpec) :
    ∀ (cmds : List Cmd) (res out : JobResult),
      runCmds host job cmds res = .ret (.ok out) →
      out.ExitCode = res.ExitCode ∧ out.Error = res.Error ∧
        out.Stderr = res.Stderr ++ stderrOfAll host cmds := by
  intro cmds
  induction cmds with
  | nil =>
    intro res out h
    simp only [runCmds] at h
    cases h
    simp [stderrOfAll]
  | cons initCmd rest ih =>
    intro res out h
    simp only [runCmds] at h
    split at h
    · cases h
    · rename_i rendered hr
      split at h
      · cases h
      · rename_i arg0 args hargv
        split at h
        · cases h
        · split at h
          · split at h
            · cases h
            · obtain ⟨h1, h2, h3⟩ := ih _ out h
              refine ⟨h1, h2, ?_⟩
              rw [h3]
              simp [stderrOfAll, procOf, hr, hargv]
          · split at h
            · cases h
            · split at h
              · cases h
              · obtain ⟨h1, h2, h3⟩ := ih _ out h
                refine ⟨h1, h2, ?_⟩
                rw [h3]
                simp [stderrOfAll, procOf, hr, hargv]

theorem runCmds_clean (host : Host) (job : JobSpec) :
    ∀ (cmds : List Cmd) (res : JobResult), runsClean host cmds = true →
      ∃ out, runCmds host job cmds res = .ret (.ok out) := by
  intro cmds
  induction cmds with
  | nil => intro res _; exact ⟨res, rfl⟩
  | cons initCmd rest ih =>
    intro res h
    simp only [runsClean] at h
    cases hr : host.render initCmd with
    | error e => simp [hr] at h
    | ok rendered =>
      simp only [hr, Bool.and_eq_true, Bool.not_eq_true', Option.isNone_iff_eq_none] at h
      obtain ⟨⟨⟨⟨hne, hstart⟩, hout⟩, herr⟩, hrest⟩ := h
      cases hargv : argvOf rendered with
      | nil => simp [hargv] at hne
      | cons arg0 args =>
        rw [hargv] at hstart hout herr
        simp only [runCmds, hr, hargv, hstart, hout, herr]
        split
        · exact ih _ hrest
        · exact ih _ hrest

/-- C14 (as the code has it): whenever `Worker.Run` reports a result for a job, its `ExitCode`
is 0 and its `Error` is empty whatever the exit codes of the job's commands, and its
`Stderr` holds the stderr bytes of all the job's commands in order: every command is run, also
after one that exits with a non-zero code.  A result is reported whenever every command
renders, starts and is read without error. -/
theorem worker_result_ignores_exit_code (host : Host) (job : JobSpec) :
    (∀ res, jobResult host job = .ret (.ok res) →
      res.ExitCode = 0 ∧ res.Error = "" ∧ res.Stderr = stderrOfAll host job.Job.Cmds) ∧
    (runsClean host job.Job.Cmds = true → ∃ res, jobResult host job = .ret (.ok res)) := by
  constructor
  · intro res h
    have hr := runCmds_result host job job.Job.Cmds JobResult.zero res h
    simpa [JobResult.zero] using hr
  · intro h
    exact runCmds_clean host job job.Job.Cmds JobResult.zero h

theorem worker_result_ignores_exit_code_witness :
    ∃ res, jobResult demoHost demoFailingJob = .ret (.ok res) ∧
      res.ExitCode = 0 ∧ res.Error = "" ∧
      res.Stderr = stderrOfAll demoHost demoFailingJob.Job.Cmds := by
  obtain ⟨res, h⟩ := (worker_result_ignores_exit_code demoHost demoFailingJob).2 (by decide)
  exact ⟨res, h, (worker_result_ignores_exit_code demoHost demoFailingJob).1 res h⟩

/-- C14 (as stated) fails: for a job whose first command exits with code 7, the result the
worker reports has `ExitCode` 0 and an empty `Error`; the stderr byte is captured. -/
theorem exit_code_not_reported :
    (demoHost.run ["bash", "-c", "exit 7"] [] "").exitCode = 7 ∧
    (jobResult demoHost demoFailingJob).value?.map Except.toOption =
      some (some { ID := 5, ExitCode := 0, Stdout := [], Stderr := [33], Error := "" }) := by
  decide

theorem ServeHTTP_memo_hit (parseID : String → Option ID) (h : Handler) (r : UploadRequest)
    (fileID : ID) (outcome : Option String) (hid : r.hasID = true)
    (hp : parseID r.artifactStr = some fileID) (hb : r.bodyOk = true)
    (hm : h.results r.artifactStr = some outcome) :
    UploadHandler.ServeHTTP parseID h r =
      (.status (if outcome.isNone then 200 else 500), h) := by
  cases outcome <;> simp [UploadHandler.ServeHTTP, hid, hp, hb, hm]

theorem serveAll_memo_hit (parseID : String → Option ID) (text : String) (fileID : ID)
    (outcome : Option String) (hp : parseID text = some fileID) :
    ∀ (reqs : List UploadRequest) (h : Handler),
      (∀ r ∈ reqs, r.hasID = true ∧ r.artifactStr = text ∧ r.bodyOk = true) →
      h.results text = some outcome →
      serveAll parseID h reqs =
        (reqs.map (fun _ => .status (if outcome.isNone then 200 else 500)), h) := by
  intro reqs
  induction reqs with
  | nil => intro h _ _; rfl
  | cons r rest ih =>
    intro h hall hm
    obtain ⟨hid, htext, hb⟩ := hall r (List.mem_cons_self r rest)
    have hstep := ServeHTTP_memo_hit parseID h r fileID outcome hid (by rw [htext]; exact hp) hb
      (by rw [htext]; exact hm)
    have hrest := ih h (fun x hx => hall x (List.mem_cons_of_mem r hx)) hm
    simp only [serveAll, hstep, hrest, List.map_cons]

theorem ServeHTTP_first (parseID : String → Option ID) (h : Handler) (first : UploadRequest)
    (fileID : ID) (hid : first.hasID = true) (hp : parseID first.artifactStr = some fileID)
    (hb : first.bodyOk = true) (hfresh : h.results first.artifactStr = none)
    (hcache : h.remoteCache.entries fileID = none) :
    (UploadHandler.ServeHTTP parseID h first).1 =
      .status (if first.diskOk then 200 else 500) ∧
    (UploadHandler.ServeHTTP parseID h first).2.results first.artifactStr =
      some (if first.diskOk then none else some "write error") ∧
    (UploadHandler.ServeHTTP parseID h first).2.writeLog = h.writeLog ++ [fileID] := by
  cases hd : first.diskOk <;>
    simp [UploadHandler.ServeHTTP, hid, hp, hb, hfresh, FileCache.Write, hcache, hd, GoMap.set]

/-- The memo of the upload handler when `Cache.Write` succeeds: of any number of requests for
one ID that is neither memoized nor in the cache, the first calls `Cache.Write`, no
other does, and all of them get the same status: 200 if the first wrote its content, 500
if that write failed. -/
theorem upload_memo_when_Write_succeeds (parseID : String → Option ID) (h : Handler)
    (first : UploadRequest) (rest : List UploadRequest) (fileID : ID)
    (hid : first.hasID = true) (hp : parseID first.artifactStr = some fileID)
    (hb : first.bodyOk = true) (hfresh : h.results first.artifactStr = none)
    (hcache : h.remoteCache.entries fileID = none)
    (hall : ∀ r ∈ rest, r.hasID = true ∧ r.artifactStr = first.artifactStr ∧ r.bodyOk = true) :
    (serveAll parseID h (first :: rest)).1 =
      (first :: rest).map (fun _ => .status (if first.diskOk then 200 else 500)) ∧
    (serveAll parseID h (first :: rest)).2.writeLog = h.writeLog ++ [fileID] := by
  obtain ⟨h1, h2, h3⟩ := ServeHTTP_first parseID h first fileID hid hp hb hfresh hcache
  have hrest := serveAll_memo_hit parseID first.artifactStr fileID
    (if first.diskOk then none else some "write error") hp rest
    (UploadHandler.ServeHTTP parseID h first).2 hall h2
  simp only [serveAll, hrest, h1, h3, List.map_cons, and_true]
  cases first.diskOk <;> simp

/-- C15 fails on the code when `Cache.Write` fails: of two `PUT` requests for an ID the cache
already holds, the first calls `Cache.Write`, whose error is memoized while the handler
fails at run time on the nil writer, so its client gets no response; the second gets
status 500 from the memo.  On a cache that does not hold the ID both get status 200 and
`Cache.Write` is called once. -/
theorem upload_first_request_aborts :
    (serveAll demoParseID (NewHandler demoFullCache) [demoPut, demoPut]).1 =
      [.aborted, .status 500] ∧
    (serveAll demoParseID (NewHandler demoFullCache) [demoPut, demoPut]).2.writeLog = [7] ∧
    (serveAll demoParseID (NewHandler demoCache) [demoPut, demoPut]).1 =
      [.status 200, .status 200] ∧
    (serveAll demoParseID (NewHandler demoCache) [demoPut, demoPut]).2.writeLog = [7] := by
  decide

theorem PickJob_stopped (c : Scheduler) (w : WorkerID) (h : c.queue.queue = []) :
    c.Stop.PickJob false w = .panic := by
  simp [Scheduler.PickJob, Scheduler.Stop, BlockingQueue.Take, h, Scheduler.deref]

/-- C17 fails on the code: on a stopped scheduler whose queue is empty, `PickJob` with a context
that is not cancelled fails at run time instead of returning nil: the helper's `Take`
returns nil, the caller receives it and evaluates `job.Job.ID`.  With a cancelled context
the same call returns nil. -/
theorem PickJob_after_Stop_fails :
    (NewScheduler.Stop.PickJob false "w1").panics = true ∧
    (NewScheduler.Stop.PickJob false "w1").returns = false ∧
    (NewScheduler.Stop.PickJob true "w1").value?.map Prod.fst = some none := by
  decide

theorem OnJobComplete_unregistered (c : Scheduler) (w : WorkerID) (jobID : ID)
    (res : JobResult) (h : c.resJobs jobID = none) : c.OnJobComplete w jobID res = .panic := by
  simp [Scheduler.OnJobComplete, h]

/-- C18 fails on the code: `OnJobComplete` for an ID that was never scheduled fails at run time
instead of returning `true`, since `c.resJobs[jobID]` is nil; so does a heartbeat that
reports such a job as finished. -/
theorem OnJobComplete_unknown_job_fails :
    (NewScheduler.OnJobComplete "w1" 5 demoResult1).panics = true ∧
    (NewScheduler.OnJobComplete "w1" 5 demoResult1).returns = false ∧
    ((NewCoordinator demoCache).Heartbeat false (demoReport 5)).panics = true := by
  decide

end Distbuild
